import Mathlib

/-!
Verification development for the Genie query-processing pipeline.

This file gives a shallow embedding, in Lean 4, of the core pipeline of the
repository: the rule-based verifier (`agents/verifier_agent.py`), the
retrieval strategy selection (`agents/retrieval_agent.py`), the knowledge
graph store (`retrieval/graph_store.py`), the conversation memory
(`core/memory.py`), the query analyzer (`agents/query_agent.py`) and the
orchestrator (`agents/orchestrator.py`), together with theorems settling the
specification claims about them.

Modelling conventions, used consistently below:
- Python floats are modelled as rationals (`ℚ`).
- Python strings are Lean `String`s; `str.lower` is modelled for ASCII
  letters (all keyword tables in the source are ASCII).
- Python `a in s` substring tests are `strContains`; `str.split()` is
  `pyWords` (split on whitespace runs, dropping empties).
- Python dicts are insertion-ordered association lists; `d[k] = v` on a
  missing key appends at the end, `del` removes the entry, lookup is
  `alookup`.  Python sets are modelled as deduplicated lists (the code only
  uses their cardinality and membership).
- External capabilities (the language model, hashing, wall-clock time) are
  oracle parameters: arbitrary Lean functions standing for the value the
  capability returns, `Option` when the call can raise or time out.
-/

namespace Genie

/-! ## Python string and list primitives -/

/-- ASCII lower-casing of one character (models `str.lower` for the ASCII
keyword tables used throughout the source). -/
def lowerChar (c : Char) : Char :=
  if 65 ≤ c.toNat ∧ c.toNat ≤ 90 then Char.ofNat (c.toNat + 32) else c

/-- Models Python `s.lower()`. -/
def lowerStr (s : String) : String := (s.toList.map lowerChar).asString

/-- Boolean list-prefix test. -/
def listPrefixOf [DecidableEq α] : List α → List α → Bool
  | [], _ => true
  | _ :: _, [] => false
  | a :: as, b :: bs => a = b && listPrefixOf as bs

/-- Boolean contiguous-sublist test. -/
def listInfixOf [DecidableEq α] (n : List α) : List α → Bool
  | [] => listPrefixOf n []
  | b :: bs => listPrefixOf n (b :: bs) || listInfixOf n bs

/-- Models Python `needle in hay` on strings. -/
def strContains (hay needle : String) : Bool := listInfixOf needle.toList hay.toList

/-- Whitespace characters recognised by Python `str.split()` (the forms that
occur in this code base). -/
def isSpaceChar (c : Char) : Bool := c = ' ' ∨ c = '\t' ∨ c = '\n' ∨ c = '\r'

/-- Helper for `pyWords`: accumulates the current word (reversed). -/
def wordsAux (cur : List Char) : List Char → List (List Char)
  | [] => if cur = [] then [] else [cur.reverse]
  | c :: cs =>
    if isSpaceChar c then
      (if cur = [] then wordsAux [] cs else cur.reverse :: wordsAux [] cs)
    else wordsAux (c :: cur) cs

/-- Models Python `s.split()`: split on whitespace runs, no empty words. -/
def pyWords (s : String) : List String := (wordsAux [] s.toList).map List.asString

/-- Models Python slicing `s[:n]`. -/
def pyTake (n : Nat) (s : String) : String := (s.toList.take n).asString

/-- Models Python `s.strip()`. -/
def pyStrip (s : String) : String :=
  ((s.toList.dropWhile (fun c => isSpaceChar c)).reverse.dropWhile
    (fun c => isSpaceChar c)).reverse.asString

/-- Association-list lookup (Python dict access). -/
def alookup [DecidableEq κ] (k : κ) : List (κ × β) → Option β
  | [] => none
  | (k₁, v) :: rest => if k = k₁ then some v else alookup k rest

/-- Stable insertion into a sorted list (used to model Python `list.sort`,
which is stable). -/
def insSorted (le : α → α → Bool) (x : α) : List α → List α
  | [] => [x]
  | y :: ys => if le x y then x :: y :: ys else y :: insSorted le x ys

/-- Stable sort; with a total preorder `le` this computes the same list as
Python `list.sort`. -/
def insSort (le : α → α → Bool) : List α → List α
  | [] => []
  | x :: xs => insSorted le x (insSort le xs)

/-! ## Verifier (`agents/verifier_agent.py`)

`VerifierAgent.__init__` keyword tables. -/

/-- Scientific quality indicators. -/
def scientificWords : List String :=
  ["research", "study", "clinical", "evidence", "trial", "meta-analysis"]

/-- Authoritative quality indicators. -/
def authoritativeWords : List String :=
  ["psychologist", "psychiatrist", "therapist", "counselor", "professional"]

/-- Actionable quality indicators. -/
def actionableWords : List String :=
  ["technique", "strategy", "approach", "method", "exercise", "practice"]

/-- Empathetic quality indicators (also used for the emotional-support
empathy check in `_fast_verify`). -/
def empathyWords : List String :=
  ["understand", "feel", "experience", "support", "help", "cope"]

/-- The `quality_indicators` table: the four keyword categories. -/
def qualityIndicators : List (List String) :=
  [scientificWords, authoritativeWords, actionableWords, empathyWords]

/-- Red-flag phrases for poor-quality content. -/
def redFlags : List String :=
  ["cure", "guaranteed", "miracle", "instant", "completely eliminate",
   "never", "always", "100%", "medical advice"]

/-- Common words removed before the overlap computation in
`_quick_relevance_check`. -/
def commonWords : List String :=
  ["the", "a", "an", "and", "or", "but", "in", "on", "at", "to", "for",
   "is", "are", "was", "were"]

/-- Trusted web domains (`_assess_web_trust`). -/
def trustedDomains : List String :=
  [".gov", ".edu", ".org", "nih.gov", "mayo", "cleveland", "hopkinsmedicine",
   "webmd", "psychologytoday", "apa.org", "healthline", "medicalnewstoday",
   "verywellmind"]

/-- Medium-trust URL terms (`_assess_web_trust`). -/
def mediumTrustTerms : List String :=
  ["health", "medical", "clinic", "hospital", "university"]

/-- Counts the pieces produced by `re.split` on runs of sentence-ending
punctuation: number of maximal `[.!?]+` runs, plus one. -/
def isSentEnd (c : Char) : Bool := c = '.' ∨ c = '!' ∨ c = '?'

/-- Helper: counts maximal runs of sentence-ending characters. -/
def sentRuns : List Char → Bool → Nat
  | [], _ => 0
  | c :: cs, inRun =>
    if isSentEnd c then (if inRun then 0 else 1) + sentRuns cs true
    else sentRuns cs false

/-- Models `len(re.split(r'[.!?]+', text))`. -/
def sentenceCountOf (text : String) : Nat := sentRuns text.toList false + 1

/-- Discrete features extracted from the text by `_assess_content_quality`. -/
structure QualityFeatures where
  textLen : Nat
  qualityCount : Nat
  sentences : Nat
deriving DecidableEq

/-- Feature extraction of `_assess_content_quality`: character length,
number of keyword categories present, sentence count. -/
def qualityFeaturesOf (text : String) : QualityFeatures :=
  ⟨text.length,
   (qualityIndicators.filter (fun ws => ws.any (fun w => strContains (lowerStr text) w))).length,
   sentenceCountOf text⟩

/-- Arithmetic of `_assess_content_quality`: base 0.5, length band,
0.1 per keyword category, sentence band, clamped to [0.1, 1]. -/
def qualityScore (f : QualityFeatures) : ℚ :=
  let score : ℚ := 1/2
  let score := if 200 ≤ f.textLen ∧ f.textLen ≤ 2000 then score + 1/10
               else if f.textLen < 100 then score - 1/5 else score
  let score := score + (f.qualityCount : ℚ) * (1/10)
  let score := if 3 ≤ f.sentences ∧ f.sentences ≤ 20 then score + 1/10 else score
  max (1/10) (min 1 score)

/-- `VerifierAgent._assess_content_quality`. -/
def assessContentQuality (text : String) : ℚ := qualityScore (qualityFeaturesOf text)

/-- Discrete features extracted by `_quick_relevance_check`. -/
structure RelevanceFeatures where
  queryWordCount : Nat
  overlapCount : Nat
  keywordCount : Nat
  keywordMatches : Nat
  longWordBoost : Bool
deriving DecidableEq

/-- Distinct lower-cased words of `s` minus the common-word list
(`set(s.lower().split()) - common_words`). -/
def contentWordsOf (s : String) : List String :=
  ((pyWords (lowerStr s)).eraseDups).filter (fun w => ¬ commonWords.contains w)

/-- Feature extraction of `_quick_relevance_check`. -/
def relevanceFeaturesOf (text query : String) (keywords : List String) : RelevanceFeatures :=
  let qw := contentWordsOf query
  let tw := contentWordsOf text
  ⟨qw.length,
   (qw.filter (fun w => tw.contains w)).length,
   keywords.length,
   (keywords.filter (fun kw => strContains (lowerStr text) (lowerStr kw))).length,
   (pyWords (lowerStr query)).any (fun w => 4 < w.length ∧ strContains (lowerStr text) w)⟩

/-- Arithmetic of `_quick_relevance_check`: overlap ratio, keyword blend,
long-exact-word boost, capped at 1. -/
def relevanceScore (f : RelevanceFeatures) : ℚ :=
  if f.queryWordCount = 0 then 1/2
  else
    let overlap : ℚ := (f.overlapCount : ℚ) / (f.queryWordCount : ℚ)
    let relevance :=
      if f.keywordCount ≠ 0 then
        let kwScore : ℚ := min 1 ((f.keywordMatches : ℚ) / (max f.keywordCount 1 : Nat))
        overlap * (2/5) + kwScore * (3/5)
      else overlap
    let relevance := if f.longWordBoost then min 1 (relevance * (6/5)) else relevance
    min 1 relevance

/-- `VerifierAgent._quick_relevance_check`. -/
def quickRelevanceCheck (text query : String) (keywords : List String) : ℚ :=
  relevanceScore (relevanceFeaturesOf text query keywords)

/-- `VerifierAgent._assess_web_trust`: 0.9 for trusted domains, 0.7 for
medium-trust terms, 0.5 otherwise. -/
def assessWebTrust (url : String) : ℚ :=
  if trustedDomains.any (fun d => strContains (lowerStr url) d) then 9/10
  else if mediumTrustTerms.any (fun t => strContains (lowerStr url) t) then 7/10
  else 1/2

/-- The slice of the query-analysis dict that the verifier reads
(`intent`, `complexity`, `keywords`). -/
structure VQueryAnalysis where
  intent : String
  complexity : String
  keywords : List String
deriving DecidableEq

/-- The item dict handed to the verifier: the fields it reads
(`text`, `source`, `metadata["url"]`, and the optional `score`,
defaulted to 0.5 by `information.get("score", 0.5)`). -/
structure RetrievedInfo where
  text : String
  source : String
  url : String
  score : Option ℚ
deriving DecidableEq

/-- Result record of `_fast_verify`. -/
structure VerificationResult where
  quality : ℚ
  relevance : ℚ
  trust : ℚ
  hasRedFlags : Bool
deriving DecidableEq

/-- Red-flag check of `_fast_verify`. -/
def hasRedFlagsIn (text : String) : Bool :=
  redFlags.any (fun f => strContains (lowerStr text) f)

/-- Empathy-word absence check of `_fast_verify`. -/
def lacksEmpathy (text : String) : Bool :=
  ¬ empathyWords.any (fun w => strContains (lowerStr text) w)

/-- The quality component of `_fast_verify`: content quality halved on red
flags, discounted 0.7 for emotional-support queries without empathy words. -/
def fvQuality (info : RetrievedInfo) (qa : VQueryAnalysis) : ℚ :=
  let quality := assessContentQuality info.text
  let quality := if hasRedFlagsIn info.text then quality * (1/2) else quality
  if qa.intent = "emotional_support" ∧ lacksEmpathy info.text then
    quality * (7/10)
  else quality

/-- The trust component of `_fast_verify`: 0.9 for non-web sources, the
domain table for web results. -/
def fvTrust (info : RetrievedInfo) : ℚ :=
  if info.source = "web_search" then assessWebTrust info.url else 9/10

/-- The relevance component of `_fast_verify`, including the escalation to
the external relevance check.  `llm` is `_llm_verify_minimal` (`none`
models a timeout, parse failure or exception); its value is clamped to
[0,1] as in the source. -/
def fvRelevance (enableFactChecking : Bool) (llm : Option ℚ) (info : RetrievedInfo)
    (qa : VQueryAnalysis) (query : String) : ℚ :=
  let relevance := quickRelevanceCheck info.text query qa.keywords
  if (fvQuality info qa < 1/2 ∨ relevance < 1/2 ∨ qa.complexity = "complex")
      ∧ enableFactChecking then
    match llm with
    | some r => (relevance + max 0 (min 1 r)) / 2
    | none => relevance
  else relevance

/-- `VerifierAgent._fast_verify` (components assembled). -/
def fastVerify (enableFactChecking : Bool) (llm : Option ℚ) (info : RetrievedInfo)
    (qa : VQueryAnalysis) (query : String) : VerificationResult :=
  ⟨fvQuality info qa, fvRelevance enableFactChecking llm info qa query,
   fvTrust info, hasRedFlagsIn info.text⟩

/-- `VerifierAgent._calculate_confidence`: source-dependent weighted blend,
0.7 red-flag penalty, capped at 0.95. -/
def calculateConfidence (v : VerificationResult) (info : RetrievedInfo) : ℚ :=
  let originalScore := info.score.getD (1/2)
  let confidence :=
    if info.source = "web_search" then
      v.quality * (3/10) + v.relevance * (3/10) + v.trust * (3/10) + originalScore * (1/10)
    else
      v.quality * (7/20) + v.relevance * (7/20) + v.trust * (3/20) + originalScore * (3/20)
  let confidence := if v.hasRedFlags then confidence * (7/10) else confidence
  min (19/20) confidence

/-- Recommendation thresholds applied in `VerifierAgent.process`. -/
def recommendationFor (confidence : ℚ) : String :=
  if confidence < 2/5 then "reject"
  else if confidence < 7/10 then "use_with_caution"
  else "accept"

/-- Rank of a recommendation (reject < use_with_caution < accept). -/
def recRank (rec : String) : Nat :=
  if rec = "reject" then 0 else if rec = "use_with_caution" then 1 else 2

/-- The verification response data that the verifier returns and caches.
Rejections carry no `final_confidence` key in the source, hence the
`Option`. -/
structure VerifierOutput where
  recommendation : String
  confidence : ℚ
  finalConfidence : Option ℚ
  relevanceScoreOut : Option ℚ
  qualityScoreOut : Option ℚ
  reason : Option String
deriving DecidableEq

/-- `VerifierAgent._create_rejection`. -/
def mkRejection (reason : String) : VerifierOutput :=
  ⟨"reject", 0, none, none, none, some reason⟩

/-- The verification cache: insertion-ordered dict keyed by
`f"{text[:100]}:{original_query[:50]}"`. -/
abbrev VerifierCache := List (String × VerifierOutput)

/-- Cache key of `VerifierAgent.process`. -/
def verifierCacheKey (text query : String) : String :=
  pyTake 100 text ++ ":" ++ pyTake 50 query

/-- The computation `VerifierAgent.process` performs on a cache miss with
acceptable text: `_fast_verify`, `_calculate_confidence`, thresholds. -/
def verifyCompute (enableFactChecking : Bool) (llm : Option ℚ) (info : RetrievedInfo)
    (qa : VQueryAnalysis) (query : String) : VerifierOutput :=
  let v := fastVerify enableFactChecking llm info qa query
  let confidence := calculateConfidence v info
  ⟨recommendationFor confidence, confidence, some confidence,
   some v.relevance, some v.quality, none⟩

/-- `VerifierAgent.process`: cache lookup, rejection of empty/short text
(returned without caching), rule-based verification, cache insertion, and
the size-bound eviction of the oldest 500 entries past 1000. -/
def verifierProcess (enableFactChecking : Bool) (llm : Option ℚ) (info : RetrievedInfo)
    (qa : VQueryAnalysis) (query : String) (cache : VerifierCache) :
    VerifierOutput × VerifierCache :=
  let key := verifierCacheKey info.text query
  match alookup key cache with
  | some r => (r, cache)
  | none =>
    if info.text = "" ∨ info.text.length < 50 then
      (mkRejection "Content too short or empty", cache)
    else
      let out := verifyCompute enableFactChecking llm info qa query
      let cache := cache ++ [(key, out)]
      let cache := if 1000 < cache.length then cache.drop 500 else cache
      (out, cache)

/-! ## Supporting lemmas for the verifier claims -/

/-- Clamping a nonnegative value below 1 stays in [0, 1]. -/
lemma clamp01 (r : ℚ) (h : 0 ≤ r) : 0 ≤ min 1 r ∧ min 1 r ≤ 1 :=
  ⟨le_min (by norm_num) h, min_le_left _ _⟩

/-- The quality score is always within [1/10, 1]. -/
lemma qualityScore_bounds (f : QualityFeatures) :
    1/10 ≤ qualityScore f ∧ qualityScore f ≤ 1 := by
  unfold qualityScore
  exact ⟨le_max_left _ _, max_le (by norm_num) (min_le_left _ _)⟩

/-- The relevance score is always within [0, 1]. -/
lemma relevanceScore_bounds (f : RelevanceFeatures) :
    0 ≤ relevanceScore f ∧ relevanceScore f ≤ 1 := by
  unfold relevanceScore
  by_cases h0 : f.queryWordCount = 0
  · simp only [h0, if_pos]; norm_num
  · simp only [h0, if_false]
    have hover : (0:ℚ) ≤ (f.overlapCount : ℚ) / (f.queryWordCount : ℚ) :=
      div_nonneg (Nat.cast_nonneg _) (Nat.cast_nonneg _)
    have hkw : (0:ℚ) ≤ min 1 ((f.keywordMatches : ℚ) / (max f.keywordCount 1 : Nat)) :=
      le_min (by norm_num) (div_nonneg (Nat.cast_nonneg _) (Nat.cast_nonneg _))
    refine clamp01 _ ?_
    split_ifs
    all_goals first
      | exact hover
      | nlinarith
      | exact le_min (by norm_num) (by nlinarith)

/-- The quality component of `_fast_verify` lies in [0, 1]. -/
lemma fvQuality_bounds (info : RetrievedInfo) (qa : VQueryAnalysis) :
    0 ≤ fvQuality info qa ∧ fvQuality info qa ≤ 1 := by
  have hq0 := qualityScore_bounds (qualityFeaturesOf info.text)
  unfold fvQuality
  simp only [assessContentQuality]
  split_ifs <;> constructor <;> nlinarith [hq0.1, hq0.2]

/-- The relevance component of `_fast_verify` lies in [0, 1]. -/
lemma fvRelevance_bounds (efc : Bool) (llm : Option ℚ) (info : RetrievedInfo)
    (qa : VQueryAnalysis) (query : String) :
    0 ≤ fvRelevance efc llm info qa query ∧ fvRelevance efc llm info qa query ≤ 1 := by
  have hr0 := relevanceScore_bounds (relevanceFeaturesOf info.text query qa.keywords)
  unfold fvRelevance
  simp only [quickRelevanceCheck]
  split_ifs
  · cases llm with
    | none => exact hr0
    | some r =>
      have h1 : (0:ℚ) ≤ max 0 (min 1 r) := le_max_left _ _
      have h2 : max 0 (min 1 r) ≤ 1 := max_le (by norm_num) (min_le_left _ _)
      constructor <;> [nlinarith [hr0.1]; nlinarith [hr0.2]]
  · exact hr0

/-- The trust component of `_fast_verify` lies in [0, 1]. -/
lemma fvTrust_bounds (info : RetrievedInfo) :
    0 ≤ fvTrust info ∧ fvTrust info ≤ 1 := by
  unfold fvTrust assessWebTrust
  split_ifs <;> norm_num

/-- The final confidence lies in [0, 19/20] whenever the component scores
are in [0,1] and the item's original score is nonnegative. -/
lemma calculateConfidence_bounds (v : VerificationResult) (info : RetrievedInfo)
    (hq : 0 ≤ v.quality) (hr : 0 ≤ v.relevance) (ht : 0 ≤ v.trust)
    (hs : 0 ≤ info.score.getD (1/2)) :
    0 ≤ calculateConfidence v info ∧ calculateConfidence v info ≤ 19/20 := by
  unfold calculateConfidence
  constructor
  · apply le_min (by norm_num)
    split_ifs <;> nlinarith
  · exact min_le_left _ _

/-- The recommendation thresholds are monotone in the confidence. -/
lemma recommendationFor_monotone (c₁ c₂ : ℚ) (h : c₁ ≤ c₂) :
    recRank (recommendationFor c₁) ≤ recRank (recommendationFor c₂) := by
  unfold recommendationFor
  split_ifs
  all_goals first
    | decide
    | (exfalso; linarith)

/-- On a cache hit, `VerifierAgent.process` returns the cached response
and leaves the cache unchanged. -/
lemma verifierProcess_hit (efc : Bool) (llm : Option ℚ) (info : RetrievedInfo)
    (qa : VQueryAnalysis) (query : String) (cache : VerifierCache)
    (r : VerifierOutput)
    (hhit : alookup (verifierCacheKey info.text query) cache = some r) :
    verifierProcess efc llm info qa query cache = (r, cache) := by
  unfold verifierProcess
  simp only [hhit]

/-- On a cache miss with empty or undersized text, `VerifierAgent.process`
returns the fixed rejection and leaves the cache unchanged. -/
lemma verifierProcess_short (efc : Bool) (llm : Option ℚ) (info : RetrievedInfo)
    (qa : VQueryAnalysis) (query : String) (cache : VerifierCache)
    (hmiss : alookup (verifierCacheKey info.text query) cache = none)
    (hshort : info.text = "" ∨ info.text.length < 50) :
    verifierProcess efc llm info qa query cache
      = (mkRejection "Content too short or empty", cache) := by
  unfold verifierProcess
  simp only [hmiss, if_pos hshort]

/-- On a cache miss with acceptable text, `VerifierAgent.process` runs the
rule-based verification and appends the result to the cache (evicting the
oldest 500 entries when the cache exceeds 1000). -/
lemma verifierProcess_long (efc : Bool) (llm : Option ℚ) (info : RetrievedInfo)
    (qa : VQueryAnalysis) (query : String) (cache : VerifierCache)
    (hmiss : alookup (verifierCacheKey info.text query) cache = none)
    (hlong : ¬ (info.text = "" ∨ info.text.length < 50)) :
    verifierProcess efc llm info qa query cache
      = (verifyCompute efc llm info qa query,
         let c₂ := cache ++ [(verifierCacheKey info.text query,
                              verifyCompute efc llm info qa query)]
         if 1000 < c₂.length then c₂.drop 500 else c₂) := by
  unfold verifierProcess
  simp only [hmiss, if_neg hlong]

/-- Claim C3 (as stated) is false: the verifier puts no lower bound on the
item's original retrieval score, and a sufficiently negative score drives
`final_confidence` below 0.  Concretely: a 60-character text with retrieval
score -10 yields final confidence -63/50 < 0. -/
theorem c3_counterexample :
    ((verifierProcess false none
        ⟨"zzzzzzzzzzzzzzzzzzzzzzzzzzzzzzzzzzzzzzzzzzzzzzzzzzzzzzzzzzzz",
         "vector_search", "", some (-10)⟩
        ⟨"factual", "simple", []⟩ "qq ww" []).1.finalConfidence.getD 0) < 0 := by
  have hq : fvQuality
      ⟨"zzzzzzzzzzzzzzzzzzzzzzzzzzzzzzzzzzzzzzzzzzzzzzzzzzzzzzzzzzzz",
       "vector_search", "", some (-10)⟩ ⟨"factual", "simple", []⟩ = 3/10 := by
    have h1 : qualityFeaturesOf
        "zzzzzzzzzzzzzzzzzzzzzzzzzzzzzzzzzzzzzzzzzzzzzzzzzzzzzzzzzzzz" = ⟨60, 0, 1⟩ := by
      decide
    have h3 : hasRedFlagsIn
        "zzzzzzzzzzzzzzzzzzzzzzzzzzzzzzzzzzzzzzzzzzzzzzzzzzzzzzzzzzzz" = false := by decide
    rw [fvQuality]
    simp only [assessContentQuality, h1, h3]
    rw [if_neg (by decide)]
    rw [if_neg (by simp)]
    norm_num [qualityScore]
  have hr : fvRelevance false none
      ⟨"zzzzzzzzzzzzzzzzzzzzzzzzzzzzzzzzzzzzzzzzzzzzzzzzzzzzzzzzzzzz",
       "vector_search", "", some (-10)⟩ ⟨"factual", "simple", []⟩ "qq ww" = 0 := by
    have h2 : relevanceFeaturesOf
        "zzzzzzzzzzzzzzzzzzzzzzzzzzzzzzzzzzzzzzzzzzzzzzzzzzzzzzzzzzzz" "qq ww" []
        = ⟨2, 0, 0, 0, false⟩ := by decide
    rw [fvRelevance]
    simp only [quickRelevanceCheck, h2]
    rw [if_neg (by simp)]
    norm_num [relevanceScore]
  have ht : fvTrust
      ⟨"zzzzzzzzzzzzzzzzzzzzzzzzzzzzzzzzzzzzzzzzzzzzzzzzzzzzzzzzzzzz",
       "vector_search", "", some (-10)⟩ = 9/10 := by
    rw [fvTrust, if_neg (by decide)]
  rw [verifierProcess_long false none
      ⟨"zzzzzzzzzzzzzzzzzzzzzzzzzzzzzzzzzzzzzzzzzzzzzzzzzzzzzzzzzzzz",
       "vector_search", "", some (-10)⟩
      ⟨"factual", "simple", []⟩ "qq ww" [] rfl (by decide)]
  simp only [verifyCompute, fastVerify, hq, hr, ht, Option.getD_some]
  rw [calculateConfidence]
  rw [if_neg (by decide : ¬ ("vector_search" = "web_search"))]
  rw [show hasRedFlagsIn
      "zzzzzzzzzzzzzzzzzzzzzzzzzzzzzzzzzzzzzzzzzzzzzzzzzzzzzzzzzzzz" = false from by decide]
  norm_num

/-- Claim C3 (amended): on a fresh cache key, provided the item's original
retrieval score is nonnegative (as all source adapters produce), the
verifier's confidence lies in [0, 0.95]; the recommendation is exactly the
threshold function of the confidence (which is monotone); and when
`final_confidence` is present it equals the confidence. -/
theorem c3_confidence_bounds_amended (efc : Bool) (llm : Option ℚ)
    (info : RetrievedInfo) (qa : VQueryAnalysis) (query : String)
    (cache : VerifierCache)
    (hmiss : alookup (verifierCacheKey info.text query) cache = none)
    (hscore : 0 ≤ info.score.getD (1/2)) :
    let out := (verifierProcess efc llm info qa query cache).1
    (0 ≤ out.confidence ∧ out.confidence ≤ 19/20) ∧
    out.recommendation = recommendationFor out.confidence ∧
    (∀ c, out.finalConfidence = some c → c = out.confidence) ∧
    (∀ c₁ c₂ : ℚ, c₁ ≤ c₂ →
      recRank (recommendationFor c₁) ≤ recRank (recommendationFor c₂)) := by
  intro out
  by_cases hshort : info.text = "" ∨ info.text.length < 50
  · have hout : out = mkRejection "Content too short or empty" := by
      show (verifierProcess efc llm info qa query cache).1 = _
      rw [verifierProcess_short efc llm info qa query cache hmiss hshort]
    refine ⟨?_, ?_, ?_, fun c₁ c₂ h => recommendationFor_monotone c₁ c₂ h⟩
    · rw [hout]; norm_num [mkRejection]
    · rw [hout]; norm_num [mkRejection, recommendationFor]
    · intro c hc; rw [hout] at hc; simp [mkRejection] at hc
  · have hout : out = verifyCompute efc llm info qa query := by
      show (verifierProcess efc llm info qa query cache).1 = _
      rw [verifierProcess_long efc llm info qa query cache hmiss hshort]
    have hb := calculateConfidence_bounds (fastVerify efc llm info qa query) info
      (fvQuality_bounds info qa).1 (fvRelevance_bounds efc llm info qa query).1
      (fvTrust_bounds info).1 hscore
    refine ⟨?_, ?_, ?_, fun c₁ c₂ h => recommendationFor_monotone c₁ c₂ h⟩
    · rw [hout]; exact hb
    · rw [hout]; simp only [verifyCompute]
    · intro c hc; rw [hout] at hc
      simp only [verifyCompute] at hc
      rw [hout]
      simp only [verifyCompute]
      exact (Option.some.injEq _ _ ▸ hc).symm

/-- Witness for C3 (amended) at a concrete input: the empty cache misses
and the defaulted score 1/2 is nonnegative. -/
theorem c3_witness :
    let out := (verifierProcess false none ⟨"", "vector_search", "", none⟩
      ⟨"factual", "simple", []⟩ "anxiety" []).1
    (0 ≤ out.confidence ∧ out.confidence ≤ 19/20) ∧
    out.recommendation = recommendationFor out.confidence ∧
    (∀ c, out.finalConfidence = some c → c = out.confidence) ∧
    (∀ c₁ c₂ : ℚ, c₁ ≤ c₂ →
      recRank (recommendationFor c₁) ≤ recRank (recommendationFor c₂)) :=
  c3_confidence_bounds_amended false none ⟨"", "vector_search", "", none⟩
    ⟨"factual", "simple", []⟩ "anxiety" [] rfl (by norm_num)

/-! ## Association-list and string lemmas for the cache claims -/

/-- Appending a fresh key at the end makes it retrievable. -/
lemma alookup_append_self [DecidableEq κ] (k : κ) (v : β) (l : List (κ × β))
    (h : alookup k l = none) : alookup k (l ++ [(k, v)]) = some v := by
  induction l with
  | nil => simp [alookup]
  | cons p rest ih =>
    obtain ⟨k₁, v₁⟩ := p
    by_cases hk : k = k₁
    · simp [alookup, hk] at h
    · simp only [alookup, List.cons_append, if_neg hk] at h ⊢
      exact ih h

/-- Dropping entries cannot make an absent key present. -/
lemma alookup_drop_none [DecidableEq κ] (k : κ) (l : List (κ × β)) (n : Nat)
    (h : alookup k l = none) : alookup k (l.drop n) = none := by
  induction l generalizing n with
  | nil => simp [alookup]
  | cons p rest ih =>
    cases n with
    | zero => simpa using h
    | succ m =>
      obtain ⟨k₁, v₁⟩ := p
      rw [List.drop_succ_cons]
      by_cases hk : k = k₁
      · simp [alookup, hk] at h
      · simp only [alookup, if_neg hk] at h
        exact ih m h

/-- Inserting a fresh key and then applying the size-bound eviction of the
verifier cache keeps the new entry retrievable: the eviction only removes
the 500 oldest entries and the new entry sits at the end. -/
lemma alookup_insert_clean (cache : VerifierCache) (k : String) (v : VerifierOutput)
    (hmiss : alookup k cache = none) :
    alookup k (let c₂ := cache ++ [(k, v)]
               if 1000 < c₂.length then c₂.drop 500 else c₂) = some v := by
  show alookup k (if 1000 < (cache ++ [(k, v)]).length
      then (cache ++ [(k, v)]).drop 500 else cache ++ [(k, v)]) = some v
  by_cases hbig : 1000 < (cache ++ [(k, v)]).length
  · rw [if_pos hbig]
    have hlen : 500 ≤ cache.length := by
      simp only [List.length_append, List.length_cons, List.length_nil] at hbig
      omega
    rw [List.drop_append_of_le_length hlen]
    exact alookup_append_self k v _ (alookup_drop_none k cache 500 hmiss)
  · rw [if_neg hbig]
    exact alookup_append_self k v cache hmiss

/-- Two strings that agree on their first `n` characters and one of which
is shorter than `n` are equal (Python slicing semantics). -/
lemma text_eq_of_pyTake_eq (t₁ t₂ : String) (n : Nat)
    (h : pyTake n t₁ = pyTake n t₂) (hlen : t₁.length < n) : t₂ = t₁ := by
  obtain ⟨l₁⟩ := t₁
  obtain ⟨l₂⟩ := t₂
  simp only [pyTake, List.asString, String.toList] at h
  have hdata : l₁.take n = l₂.take n := congrArg String.data h
  have hlen' : l₁.length < n := hlen
  have hcongr : (l₁.take n).length = (l₂.take n).length := by rw [hdata]
  simp only [List.length_take] at hcongr
  have hl₂ : l₂.length < n := by omega
  have h₁ : l₁.take n = l₁ := List.take_of_length_le (by omega)
  have h₂ : l₂.take n = l₂ := List.take_of_length_le (by omega)
  rw [h₁, h₂] at hdata
  exact congrArg String.mk hdata.symm

/-- The verifier's rejection guard is equivalent to a pure length test
(the empty string has length 0 < 50). -/
lemma short_guard_iff (t : String) : (t = "" ∨ t.length < 50) ↔ t.length < 50 := by
  constructor
  · rintro (rfl | h)
    · norm_num [String.length]
    · exact h
  · exact Or.inr

/-- Claim C7 (as stated) is false: a rejection (here, of an empty text) is
returned without being stored in the verification cache — the cache stays
empty, so a repeated call recomputes rather than hitting the cache. -/
theorem c7_counterexample :
    (verifierProcess false none ⟨"", "vector_search", "", none⟩
        ⟨"factual", "simple", []⟩ "anxiety coping" []).1
      = mkRejection "Content too short or empty" ∧
    (verifierProcess false none ⟨"", "vector_search", "", none⟩
        ⟨"factual", "simple", []⟩ "anxiety coping" []).2 = [] := by
  rw [verifierProcess_short false none ⟨"", "vector_search", "", none⟩
      ⟨"factual", "simple", []⟩ "anxiety coping" [] rfl (Or.inl rfl)]
  exact ⟨rfl, rfl⟩

/-- Claim C7 (amended): a cached key is returned verbatim with the cache
unchanged; a rejection of empty or undersized text is returned without
touching the cache; and every successfully scored result is stored under
the key built from the first 100 characters of the text plus the first 50
characters of the query, where a repeated call finds it. -/
theorem c7_caching_amended (efc : Bool) (llm : Option ℚ) (info : RetrievedInfo)
    (qa : VQueryAnalysis) (query : String) (cache : VerifierCache) :
    let key := verifierCacheKey info.text query
    let p := verifierProcess efc llm info qa query cache
    (∀ r₀, alookup key cache = some r₀ → p = (r₀, cache)) ∧
    (alookup key cache = none → (info.text = "" ∨ info.text.length < 50) →
      p = (mkRejection "Content too short or empty", cache)) ∧
    (alookup key cache = none → ¬ (info.text = "" ∨ info.text.length < 50) →
      alookup key p.2 = some p.1) := by
  refine ⟨?_, ?_, ?_⟩
  · intro r₀ hhit
    exact verifierProcess_hit efc llm info qa query cache r₀ hhit
  · intro hmiss hshort
    exact verifierProcess_short efc llm info qa query cache hmiss hshort
  · intro hmiss hlong
    rw [verifierProcess_long efc llm info qa query cache hmiss hlong]
    exact alookup_insert_clean cache _ _ hmiss

/-- Witness for C7 (amended) at a concrete input: a 60-character text on an
empty cache ends up cached under its key. -/
theorem c7_witness :
    let info : RetrievedInfo :=
      ⟨"zzzzzzzzzzzzzzzzzzzzzzzzzzzzzzzzzzzzzzzzzzzzzzzzzzzzzzzzzzzz",
       "vector_search", "", none⟩
    let key := verifierCacheKey info.text "anxiety"
    let p := verifierProcess false none info ⟨"factual", "simple", []⟩ "anxiety" []
    alookup key p.2 = some p.1 :=
  (c7_caching_amended false none
    ⟨"zzzzzzzzzzzzzzzzzzzzzzzzzzzzzzzzzzzzzzzzzzzzzzzzzzzzzzzzzzzz",
     "vector_search", "", none⟩
    ⟨"factual", "simple", []⟩ "anxiety" []).2.2 rfl (by decide)

/-- Claim C10 (confirmed): two verify calls whose texts agree on their
first 100 characters and whose queries agree on their first 50 characters
collide on the cache key, so the second call returns exactly the first
call's result — even with entirely different query-analysis inputs and a
different answer from the external relevance check. -/
theorem c10_cache_ignores_query_analysis (efc : Bool) (llm₁ llm₂ : Option ℚ)
    (i₁ i₂ : RetrievedInfo) (qa₁ qa₂ : VQueryAnalysis) (q₁ q₂ : String)
    (cache : VerifierCache)
    (ht : pyTake 100 i₁.text = pyTake 100 i₂.text)
    (hq : pyTake 50 q₁ = pyTake 50 q₂) :
    (verifierProcess efc llm₂ i₂ qa₂ q₂
        (verifierProcess efc llm₁ i₁ qa₁ q₁ cache).2).1
      = (verifierProcess efc llm₁ i₁ qa₁ q₁ cache).1 := by
  have hkey : verifierCacheKey i₂.text q₂ = verifierCacheKey i₁.text q₁ := by
    unfold verifierCacheKey
    rw [ht, hq]
  cases hc : alookup (verifierCacheKey i₁.text q₁) cache with
  | some r =>
    rw [verifierProcess_hit efc llm₁ i₁ qa₁ q₁ cache r hc]
    rw [verifierProcess_hit efc llm₂ i₂ qa₂ q₂ cache r (by rw [hkey]; exact hc)]
  | none =>
    by_cases hshort : i₁.text = "" ∨ i₁.text.length < 50
    · have hlen₁ : i₁.text.length < 50 := (short_guard_iff i₁.text).1 hshort
      have htext : i₂.text = i₁.text :=
        text_eq_of_pyTake_eq i₁.text i₂.text 100 ht (by omega)
      have hshort₂ : i₂.text = "" ∨ i₂.text.length < 50 := by
        rw [htext]; exact hshort
      rw [verifierProcess_short efc llm₁ i₁ qa₁ q₁ cache hc hshort]
      rw [verifierProcess_short efc llm₂ i₂ qa₂ q₂ cache
          (by rw [hkey]; exact hc) hshort₂]
    · have hlong₂ : ¬ (i₂.text = "" ∨ i₂.text.length < 50) := by
        intro h₂
        have hlen₂ : i₂.text.length < 50 := (short_guard_iff i₂.text).1 h₂
        have htext : i₁.text = i₂.text :=
          text_eq_of_pyTake_eq i₂.text i₁.text 100 ht.symm (by omega)
        exact hshort (by rw [htext]; exact h₂)
      rw [verifierProcess_long efc llm₁ i₁ qa₁ q₁ cache hc hshort]
      exact congrArg Prod.fst (verifierProcess_hit efc llm₂ i₂ qa₂ q₂ _
        (verifyCompute efc llm₁ i₁ qa₁ q₁)
        (by rw [hkey]; exact alookup_insert_clean cache _ _ hc))

/-- Witness for C10 at a concrete input: same text and query, radically
different query analyses and external relevance answers; the second call
returns the first call's response. -/
theorem c10_witness :
    (verifierProcess false (some 1)
        ⟨"zzzzzzzzzzzzzzzzzzzzzzzzzzzzzzzzzzzzzzzzzzzzzzzzzzzzzzzzzzzz",
         "web_search", "example.com", some (1/2)⟩
        ⟨"emotional_support", "complex", ["anxiety"]⟩ "anxiety"
        (verifierProcess false none
          ⟨"zzzzzzzzzzzzzzzzzzzzzzzzzzzzzzzzzzzzzzzzzzzzzzzzzzzzzzzzzzzz",
           "vector_search", "", none⟩
          ⟨"factual", "simple", []⟩ "anxiety" []).2).1
      = (verifierProcess false none
          ⟨"zzzzzzzzzzzzzzzzzzzzzzzzzzzzzzzzzzzzzzzzzzzzzzzzzzzzzzzzzzzz",
           "vector_search", "", none⟩
          ⟨"factual", "simple", []⟩ "anxiety" []).1 :=
  c10_cache_ignores_query_analysis false none (some 1)
    ⟨"zzzzzzzzzzzzzzzzzzzzzzzzzzzzzzzzzzzzzzzzzzzzzzzzzzzzzzzzzzzz",
     "vector_search", "", none⟩
    ⟨"zzzzzzzzzzzzzzzzzzzzzzzzzzzzzzzzzzzzzzzzzzzzzzzzzzzzzzzzzzzz",
     "web_search", "example.com", some (1/2)⟩
    ⟨"factual", "simple", []⟩ ⟨"emotional_support", "complex", ["anxiety"]⟩
    "anxiety" "anxiety" [] rfl rfl

/-! ## Retrieval strategy selection (`agents/retrieval_agent.py`)

The slice of the query-analysis dict read by the orchestrator's retrieval
dispatch and by `RetrievalAgent`.  The `retrievalStrategy` and
`topKOverride` fields model the `"retrieval_strategy"` and `"top_k"` keys
written by `OrchestratorAgent._lightweight_retrieval`; no code in
`RetrievalAgent` ever reads them. -/

structure QueryAnalysis where
  intent : String
  queryType : String
  complexity : String
  urgencyLevel : String
  requiresCurrentInfo : Bool
  useWebOnly : Bool
  retrievalStrategy : Option (List String)
  topKOverride : Option Nat
deriving DecidableEq

/-- The strategy dict produced by `_determine_fast_strategy`. -/
structure RetrievalStrategy where
  methods : List String
  weights : List (String × ℚ)
  topK : Nat
  skipRerank : Bool
  maxEntities : Nat
  hopDistance : Option Nat
  queryType : String
deriving DecidableEq

/-- `RetrievalAgent._determine_fast_strategy`: decision table keyed on the
lower-cased `query_type`, `intent` and `complexity` — and on nothing
else. -/
def determineFastStrategy (qa : QueryAnalysis) : RetrievalStrategy :=
  let queryType := lowerStr qa.queryType
  let intent := lowerStr qa.intent
  let complexity := lowerStr qa.complexity
  if queryType = "emotional" ∨ intent = "emotional_support" ∨ intent = "conversation" then
    ⟨["vector", "bm25", "web"], [("vector", 1/2), ("bm25", 3/10), ("web", 1/5)],
     15, false, 0, none, "emotional"⟩
  else if queryType = "factual" ∨ intent = "information_seeking" ∨ intent = "education" then
    ⟨["web", "graph"], [("web", 7/10), ("graph", 3/10)], 15, false, 2, some 1, "factual"⟩
  else if queryType = "practical" ∨ intent = "practical_guidance" ∨ intent = "help_seeking" then
    ⟨["web"], [("web", 1)], 12, false, 0, none, "practical"⟩
  else if complexity = "simple" then
    ⟨["vector"], [("vector", 1)], 10, true, 0, none, "simple"⟩
  else
    ⟨["vector", "web", "graph"], [("vector", 2/5), ("web", 2/5), ("graph", 1/5)],
     20, false, 1, some 1, "complex"⟩

/-- The mental-health entity table of `_extract_entities_optimized`
(insertion order of the Python dict). -/
def mentalHealthEntities : List (String × List String) :=
  [("anxiety", ["anxiety", "anxious", "worried", "panic", "fear"]),
   ("depression", ["depression", "depressed", "sad", "hopeless", "mood"]),
   ("stress", ["stress", "stressed", "overwhelm", "pressure", "burden"]),
   ("therapy", ["therapy", "counseling", "treatment", "therapeutic"]),
   ("cognitive_behavioral_therapy", ["cbt", "cognitive behavioral", "cognitive therapy"]),
   ("medication", ["medication", "antidepressant", "ssri", "medicine"]),
   ("mindfulness", ["mindfulness", "meditation", "breathing", "relaxation"]),
   ("support", ["support", "help", "guidance", "assistance"]),
   ("coping", ["coping", "cope", "manage", "deal", "handle"]),
   ("mental_health", ["mental health", "wellbeing", "wellness", "psychological"])]

/-- Entities prioritised for factual queries in `_extract_entities_optimized`. -/
def treatmentEntityNames : List String :=
  ["therapy", "cognitive_behavioral_therapy", "medication", "treatment"]

/-- `RetrievalAgent._extract_entities_optimized`. -/
def extractEntitiesOptimized (query : String) (qa : QueryAnalysis) : List String :=
  let ql := lowerStr query
  let entities := (mentalHealthEntities.filter
    (fun p => p.2.any (fun kw => strContains ql kw))).map Prod.fst
  let entities := if entities = [] then ["mental_health"] else entities
  let entities :=
    if lowerStr qa.queryType = "factual" then
      let treatment := entities.filter (fun e => treatmentEntityNames.contains e)
      if treatment ≠ [] then
        treatment ++ entities.filter (fun e => ¬ treatment.contains e)
      else entities
    else entities
  entities.take 3

/-- Which of the four source adapters are wired in (set by the setup code;
`_execute_fast_retrieval` only searches a source whose store is set). -/
structure Stores where
  hasVector : Bool
  hasBm25 : Bool
  hasGraph : Bool
  hasWeb : Bool
deriving DecidableEq

/-- The search tasks `_execute_fast_retrieval` launches, in source order:
vector, bm25, one graph task per extracted entity (only when the strategy
allows entities), then web. -/
def plannedSearchTasks (strategy : RetrievalStrategy) (stores : Stores)
    (query : String) (qa : QueryAnalysis) : List String :=
  (if strategy.methods.contains "vector" ∧ stores.hasVector then ["vector"] else []) ++
  (if strategy.methods.contains "bm25" ∧ stores.hasBm25 then ["bm25"] else []) ++
  (if strategy.methods.contains "graph" ∧ stores.hasGraph ∧ 0 < strategy.maxEntities then
    ((extractEntitiesOptimized query qa).take strategy.maxEntities).map (fun _ => "graph")
  else []) ++
  (if strategy.methods.contains "web" ∧ stores.hasWeb then ["web"] else [])

/-- The analysis dict built by `OrchestratorAgent._lightweight_retrieval`:
the original analysis with `use_web_only := false`,
`retrieval_strategy := ["vector"]` and `top_k := 5` overridden. -/
def lightweightAnalysis (qa : QueryAnalysis) : QueryAnalysis :=
  { qa with useWebOnly := false, retrievalStrategy := some ["vector"],
            topKOverride := some 5 }

/-- The orchestrator's dispatch condition for the lightweight path
(`OrchestratorAgent.process`, optimization 2). -/
def usesLightweightRetrieval (qa : QueryAnalysis) : Bool :=
  lowerStr qa.intent = "emotional_support" ∧ ¬ qa.requiresCurrentInfo

/-- Claim C2 is a code bug: for a pure emotional-support analysis the
orchestrator takes the lightweight path and hands the retrieval agent an
analysis carrying `retrieval_strategy = ["vector"]` and `top_k = 5`, but
`RetrievalAgent` never reads those keys — its strategy selection fires the
emotional branch and searches vector, bm25 (keyword) and web with
`top_k = 15`, not the vector-only path the code's own comments promise. -/
theorem c2_lightweight_not_vector_only :
    let qa : QueryAnalysis :=
      ⟨"emotional_support", "emotional", "moderate", "moderate", false, false,
       none, none⟩
    usesLightweightRetrieval qa = true ∧
    (lightweightAnalysis qa).retrievalStrategy = some ["vector"] ∧
    (lightweightAnalysis qa).topKOverride = some 5 ∧
    (determineFastStrategy (lightweightAnalysis qa)).methods = ["vector", "bm25", "web"] ∧
    (determineFastStrategy (lightweightAnalysis qa)).topK = 15 ∧
    plannedSearchTasks (determineFastStrategy (lightweightAnalysis qa))
        ⟨true, true, true, true⟩ "i feel overwhelmed" (lightweightAnalysis qa)
      = ["vector", "bm25", "web"] := by
  decide

/-- Claim C5 (as stated) is false: strategy selection is not a function of
`query_type` alone — an analysis with `query_type = "factual"` but
`intent = "emotional_support"` takes the emotional branch, not the
web+graph branch. -/
theorem c5_counterexample :
    (determineFastStrategy
        ⟨"emotional_support", "factual", "simple", "none", true, true, none, none⟩).methods
      = ["vector", "bm25", "web"] ∧
    (determineFastStrategy
        ⟨"emotional_support", "factual", "simple", "none", true, true, none, none⟩).methods
      ≠ ["web", "graph"] := by
  decide

/-- Claim C5 (amended): for `query_type = "factual"`, provided the intent
is not one of the emotional-branch intents (`emotional_support`,
`conversation`) — as holds for every analysis the query agent produces for
a factual query — strategy selection returns exactly the web+graph
strategy: weights web 0.7 / graph 0.3, `top_k = 15`, at most 2 graph
entities, and `hop_distance = 1`. -/
theorem c5_factual_strategy_amended (qa : QueryAnalysis)
    (hqt : lowerStr qa.queryType = "factual")
    (hint : lowerStr qa.intent ≠ "emotional_support")
    (hint2 : lowerStr qa.intent ≠ "conversation") :
    determineFastStrategy qa
      = ⟨["web", "graph"], [("web", 7/10), ("graph", 3/10)], 15, false, 2,
         some 1, "factual"⟩ := by
  unfold determineFastStrategy
  rw [hqt]
  rw [if_neg (by
    push_neg
    exact ⟨by decide, hint, hint2⟩)]
  rw [if_pos (Or.inl rfl)]

/-- Witness for C5 (amended) at the concrete analysis the query agent
produces for "What are the symptoms of anxiety?". -/
theorem c5_witness :
    determineFastStrategy
        ⟨"factual", "factual", "simple", "none", true, true, none, none⟩
      = ⟨["web", "graph"], [("web", 7/10), ("graph", 3/10)], 15, false, 2,
         some 1, "factual"⟩ :=
  c5_factual_strategy_amended
    ⟨"factual", "factual", "simple", "none", true, true, none, none⟩
    (by decide) (by decide) (by decide)

/-! ## Knowledge graph store (`retrieval/graph_store.py`)

The graph is a directed graph with per-edge attributes, plus the entity
indexes and the two caches.  Python dicts and sets become insertion-ordered
association lists and deduplicated lists (Python set iteration order is
implementation-defined; the verified properties are order-independent).
Cache entries carry their insertion timestamp (a rational, like all times
here). -/

/-- Edge attributes stored by `add_triple`. -/
structure EdgeData where
  pred : String
  weight : ℚ
deriving DecidableEq

/-- One relation result of `GraphStore.search_entity` (the dict it appends,
with the metadata fields inlined). -/
structure GraphResult where
  entity : String
  relatedEntity : String
  relationship : String
  distance : Nat
  text : String
  relevance : ℚ
  score : ℚ
  pathLength : Nat
  originalEntity : String
  hopDistance : Nat
deriving DecidableEq

/-- The `GraphStore` state. -/
structure GraphStore where
  nodes : List String
  edges : List ((String × String) × EdgeData)
  entityIndex : List (String × List String)
  entityTextIndex : List (String × List String)
  searchCache : List ((String × Nat × Nat) × (ℚ × List GraphResult))
  neighborCache : List ((String × Nat) × List (String × Nat))
deriving DecidableEq

/-- The empty graph store. -/
def emptyGraph : GraphStore := ⟨[], [], [], [], [], []⟩

/-- Replace-in-place-or-append update of an association list (Python dict
assignment). -/
def setAssoc [DecidableEq κ] (k : κ) (v : β) : List (κ × β) → List (κ × β)
  | [] => [(k, v)]
  | (k₁, v₁) :: rest => if k = k₁ then (k, v) :: rest else (k₁, v₁) :: setAssoc k v rest

/-- Set insertion (Python `set.add`), determinized to insertion order. -/
def addToSet (l : List String) (x : String) : List String :=
  if l.contains x then l else l ++ [x]

/-- Set union (Python `set.update`). -/
def addAllToSet (l : List String) (xs : List String) : List String :=
  xs.foldl addToSet l

/-- `GraphStore._calculate_edge_weight`: fixed predicate-importance table
with default 0.5. -/
def calcEdgeWeight (predicate : String) : ℚ :=
  if lowerStr predicate = "treats" then 9/10
  else if lowerStr predicate = "causes" then 4/5
  else if lowerStr predicate = "symptom_of" then 4/5
  else if lowerStr predicate = "therapy_for" then 9/10
  else if lowerStr predicate = "medication_for" then 4/5
  else if lowerStr predicate = "helps_with" then 7/10
  else if lowerStr predicate = "related_to" then 1/2
  else if lowerStr predicate = "is_type_of" then 3/5
  else 1/2

/-- `GraphStore._update_entity_index`. -/
def updateEntityIndex (g : GraphStore) (entity : String) : GraphStore :=
  let el := lowerStr entity
  { g with entityIndex :=
      (setAssoc el (addToSet ((alookup el g.entityIndex).getD []) entity) g.entityIndex) }

/-- `GraphStore._update_text_index`: index every word of length > 2 to the
lower-cased entity. -/
def updateTextIndex (g : GraphStore) (entity : String) : GraphStore :=
  let el := lowerStr entity
  { g with entityTextIndex :=
      (pyWords el).foldl (fun ix word =>
        if 2 < word.length then
          setAssoc word (addToSet ((alookup word ix).getD []) el) ix
        else ix) g.entityTextIndex }

/-- The formatted search-cache key `f"{entity}:{hop}:{limit}"` that the
source uses for the substring-based invalidation scan. -/
def searchKeyStr (k : String × Nat × Nat) : String :=
  k.1 ++ ":" ++ toString k.2.1 ++ ":" ++ toString k.2.2

/-- The formatted neighbor-cache key `f"{node}:{hop}"`. -/
def nbKeyStr (k : String × Nat) : String := k.1 ++ ":" ++ toString k.2

/-- `GraphStore._invalidate_cache_for_entity`: removes search-cache entries
whose formatted key contains the lower-cased entity, and the neighbor-cache
entry whose key literally equals it. -/
def invalidateCacheForEntity (g : GraphStore) (entity : String) : GraphStore :=
  let el := lowerStr entity
  { g with
    searchCache := g.searchCache.filter (fun kv => ¬ strContains (lowerStr (searchKeyStr kv.1)) el),
    neighborCache := g.neighborCache.filter (fun kv => ¬ (nbKeyStr kv.1 = el)) }

/-- `GraphStore.add_triple`: add both nodes, add/overwrite the edge with
the predicate-derived weight, update both indexes, invalidate caches. -/
def addTriple (g : GraphStore) (subject predicate object : String) : GraphStore :=
  let g := { g with nodes := addToSet (addToSet g.nodes subject) object }
  let g := { g with edges :=
      (setAssoc (subject, object) ⟨predicate, calcEdgeWeight predicate⟩ g.edges) }
  let g := updateEntityIndex (updateEntityIndex g subject) object
  let g := updateTextIndex (updateTextIndex g subject) object
  invalidateCacheForEntity (invalidateCacheForEntity g subject) object

/-- Builds a store from a triple list by repeated `add_triple`. -/
def buildGraph (ts : List (String × String × String)) : GraphStore :=
  ts.foldl (fun g t => addTriple g t.1 t.2.1 t.2.2) emptyGraph

/-- Direct successors of a node (`self.graph.neighbors` on a DiGraph). -/
def successors (g : GraphStore) (u : String) : List String :=
  (g.edges.filter (fun e => e.1.1 = u)).map (fun e => e.1.2)

/-- One BFS expansion wave for `nx.single_source_shortest_path_length`:
nodes at distance `d+1`, `d+2`, … up to the remaining fuel. -/
def bfsDistAux (g : GraphStore) : Nat → List String → List String → Nat → List (String × Nat)
  | 0, _, _, _ => []
  | fuel + 1, frontier, visited, d =>
    let next := ((frontier.flatMap (fun u => successors g u)).eraseDups).filter
      (fun v => ¬ visited.contains v)
    if next = [] then []
    else (next.map (fun v => (v, d + 1))) ++ bfsDistAux g fuel next (visited ++ next) (d + 1)

/-- `nx.single_source_shortest_path_length(graph, src, cutoff)`: the source
at distance 0 and every node within `cutoff` hops. -/
def bfsDistances (g : GraphStore) (src : String) (cutoff : Nat) : List (String × Nat) :=
  (src, 0) :: bfsDistAux g cutoff [src] [src] 0

/-- `GraphStore._get_neighbors_cached`: direct adjacency for one hop,
bounded BFS otherwise, memoized per `(node, hop)`. -/
def getNeighborsCached (g : GraphStore) (node : String) (hop : Nat) :
    List (String × Nat) × GraphStore :=
  match alookup (node, hop) g.neighborCache with
  | some ns => (ns, g)
  | none =>
    let ns := if hop = 1 then (successors g node).map (fun v => (v, 1))
              else bfsDistances g node hop
    (ns, { g with neighborCache := g.neighborCache ++ [((node, hop), ns)] })

/-- Keeps one candidate path per head node (BFS visits each node once). -/
def dedupByHead (seen : List String) : List (List String) → List (List String)
  | [] => []
  | p :: ps =>
    match p.head? with
    | some h => if seen.contains h then dedupByHead seen ps
                else p :: dedupByHead (seen ++ [h]) ps
    | none => dedupByHead seen ps

/-- Fuel-bounded breadth-first search for `nx.shortest_path` on the
directed graph; paths are kept reversed in the frontier. -/
def bfsPathAux (g : GraphStore) (dst : String) :
    Nat → List (List String) → List String → Option (List String)
  | 0, _, _ => none
  | fuel + 1, frontier, visited =>
    match frontier.find? (fun p => p.head? = some dst) with
    | some p => some p.reverse
    | none =>
      let candidates := frontier.flatMap (fun p =>
        match p.head? with
        | some u => ((successors g u).filter (fun v => ¬ visited.contains v)).map
            (fun v => v :: p)
        | none => [])
      let newPaths := dedupByHead visited candidates
      if newPaths = [] then none
      else bfsPathAux g dst fuel newPaths (visited ++ newPaths.filterMap List.head?)

/-- `nx.shortest_path(graph, src, dst)` (unweighted, directed); `none`
models `nx.NetworkXNoPath`. -/
def shortestPath (g : GraphStore) (src dst : String) : Option (List String) :=
  bfsPathAux g dst (g.nodes.length + 1) [[src]] [src]

/-- The edge weights found along a path's consecutive node pairs (edges
missing from the graph are skipped, as in the source's `edge_count`
accounting). -/
def pathEdgeWeights (g : GraphStore) (path : List String) : List ℚ :=
  (path.zip path.tail).filterMap (fun pr => (alookup pr g.edges).map EdgeData.weight)

/-- Base relevance of `_calculate_relevance`: `1/(distance+1)`, boosted
1.5 when the search term occurs in either endpoint. -/
def calcRelevanceBase (originalEntity node neighbor : String) (distance : Nat) : ℚ :=
  if strContains (lowerStr node) (lowerStr originalEntity) ∨
      strContains (lowerStr neighbor) (lowerStr originalEntity) then
    (1 / ((distance : ℚ) + 1)) * (3/2)
  else (1 / ((distance : ℚ) + 1))

/-- `GraphStore._calculate_relevance`: the boosted base, scaled by 0.5 plus
the average edge weight when the path has stored edges, capped at 1. -/
def calcRelevance (g : GraphStore) (originalEntity node neighbor : String)
    (distance : Nat) (path : List String) : ℚ :=
  min 1 (if 0 < (pathEdgeWeights g path).length then
    calcRelevanceBase originalEntity node neighbor distance
      * (1/2 + (pathEdgeWeights g path).sum / ((pathEdgeWeights g path).length : ℚ))
  else calcRelevanceBase originalEntity node neighbor distance)

/-- `GraphStore._path_to_text_optimized`. -/
def pathToText (g : GraphStore) (path : List String) : String :=
  match path with
  | [] => ""
  | [_] => ""
  | [a, b] => a ++ " " ++ (((alookup (a, b) g.edges).map EdgeData.pred).getD "related to")
      ++ " " ++ b
  | a :: b :: c :: rest =>
    a ++ " connected to " ++ ((a :: b :: c :: rest).getLast?.getD "") ++ " via "
      ++ " -> ".intercalate ((b :: c :: rest).dropLast)

/-- Pass 3 of `_find_matching_nodes_optimized`: bounded substring scan over
the first 100 index entries, stopping once more than 10 nodes are found. -/
def partialScan (el : String) : List String → List (String × List String) → List String
  | acc, [] => acc
  | acc, (key, ns) :: rest =>
    if strContains key el || strContains el key then
      let acc := addAllToSet acc ns
      if 10 < acc.length then acc else partialScan el acc rest
    else partialScan el acc rest

/-- `GraphStore._find_matching_nodes_optimized`: exact match, word-index
match, then the bounded substring scan when fewer than 5 nodes matched. -/
def findMatchingNodes (g : GraphStore) (entity : String) : List String :=
  let el := lowerStr entity
  let matching := addAllToSet [] ((alookup el g.entityIndex).getD [])
  let matching := (pyWords el).foldl (fun acc word =>
    if 2 < word.length then
      ((alookup word g.entityTextIndex).getD []).foldl (fun acc₂ m =>
        match alookup m g.entityIndex with
        | some surf => addAllToSet acc₂ surf
        | none => acc₂) acc
    else acc) matching
  if matching.length < 5 then partialScan el matching (g.entityIndex.take 100)
  else matching

/-- Builds the result dict appended by `search_entity` for one relation. -/
def mkGraphResult (g : GraphStore) (entity node neighbor : String) (distance : Nat)
    (path : List String) (hop : Nat) : GraphResult :=
  ⟨node, neighbor, pathToText g path, distance, pathToText g path,
   calcRelevance g entity node neighbor distance path,
   calcRelevance g entity node neighbor distance path,
   path.length, entity, hop⟩

/-- The unordered endpoint pair used for duplicate suppression
(`(node, neighbor) if node < neighbor else (neighbor, node)`). -/
def pairKeyOf (node neighbor : String) : String × String :=
  if node < neighbor then (node, neighbor) else (neighbor, node)

/-- The inner neighbor loop of `search_entity`: duplicate-pair suppression,
shortest-path computation, the `len(path) <= hop_distance + 1` guard, and
the early exit at `limit * 2` results (local rebindings of the source are
inlined). -/
def searchInner (g : GraphStore) (entity node : String) (hop limit : Nat) :
    List (String × Nat) → List GraphResult → List (String × String) →
    List GraphResult × List (String × String)
  | [], results, pairs => (results, pairs)
  | (neighbor, distance) :: rest, results, pairs =>
    if neighbor = node then searchInner g entity node hop limit rest results pairs
    else if pairs.contains (pairKeyOf node neighbor) then
      searchInner g entity node hop limit rest results pairs
    else
      match shortestPath g node neighbor with
      | none => searchInner g entity node hop limit rest results
          (pairs ++ [pairKeyOf node neighbor])
      | some path =>
        if path.length ≤ hop + 1 then
          if limit * 2 ≤ (results ++ [mkGraphResult g entity node neighbor distance path hop]).length then
            (results ++ [mkGraphResult g entity node neighbor distance path hop],
             pairs ++ [pairKeyOf node neighbor])
          else
            searchInner g entity node hop limit rest
              (results ++ [mkGraphResult g entity node neighbor distance path hop])
              (pairs ++ [pairKeyOf node neighbor])
        else
          if limit * 2 ≤ results.length then (results, pairs ++ [pairKeyOf node neighbor])
          else searchInner g entity node hop limit rest results
            (pairs ++ [pairKeyOf node neighbor])

/-- The outer node loop of `search_entity` over the top matched nodes,
threading the neighbor cache (local rebindings inlined). -/
def searchOuter (entity : String) (hop limit : Nat) :
    List String → GraphStore → List GraphResult → List (String × String) →
    List GraphResult × GraphStore
  | [], g, results, _ => (results, g)
  | node :: restNodes, g, results, pairs =>
    if g.nodes.contains node then
      searchOuter entity hop limit restNodes (getNeighborsCached g node hop).2
        (searchInner (getNeighborsCached g node hop).2 entity node hop limit
          (getNeighborsCached g node hop).1 results pairs).1
        (searchInner (getNeighborsCached g node hop).2 entity node hop limit
          (getNeighborsCached g node hop).1 results pairs).2
    else searchOuter entity hop limit restNodes g results pairs

/-- `GraphStore._clean_cache`: drop expired search entries, then the 50
oldest past 100; drop the first 100 neighbor entries past 200. -/
def graphCleanCache (g : GraphStore) (now : ℚ) : GraphStore :=
  let sc := g.searchCache.filter (fun kv => ¬ (600 < now - kv.2.1))
  let sc := if 100 < sc.length then
      let toRemove := ((insSort (fun a b => decide (a.2.1 ≤ b.2.1)) sc).take 50).map Prod.fst
      sc.filter (fun kv => ¬ toRemove.contains kv.1)
    else sc
  let nc := if 200 < g.neighborCache.length then g.neighborCache.drop 100 else g.neighborCache
  { g with searchCache := sc, neighborCache := nc }

/-- The sorted, truncated final result list of a `search_entity`
computation (Python `list.sort(reverse=True)` is a stable descending
sort). -/
def searchEntityFinal (g : GraphStore) (entity : String) (hop limit : Nat) :
    List GraphResult :=
  (insSort (fun a b => decide (b.relevance ≤ a.relevance))
    (searchOuter entity hop limit ((findMatchingNodes g entity).take 3) g [] []).1).take limit

/-- The cache-miss computation of `GraphStore.search_entity`: match nodes,
expand the top 3, sort by relevance (descending, stable) and truncate,
store under the `(entity.lower(), hop, limit)` key, clean caches (local
rebindings inlined). -/
def searchEntityCompute (g : GraphStore) (now : ℚ) (entity : String)
    (hop limit : Nat) : List GraphResult × GraphStore :=
  if findMatchingNodes g entity = [] then ([], g)
  else
    (searchEntityFinal g entity hop limit,
     graphCleanCache
       { (searchOuter entity hop limit ((findMatchingNodes g entity).take 3) g [] []).2 with
         searchCache := (setAssoc (lowerStr entity, hop, limit)
           (now, searchEntityFinal g entity hop limit)
           (searchOuter entity hop limit
             ((findMatchingNodes g entity).take 3) g [] []).2.searchCache) }
       now)

/-- `GraphStore.search_entity` with its TTL-guarded cache (TTL 600 s). -/
def searchEntity (g : GraphStore) (now : ℚ) (entity : String) (hop limit : Nat) :
    List GraphResult × GraphStore :=
  match alookup (lowerStr entity, hop, limit) g.searchCache with
  | some tsv => if now - tsv.1 < 600 then (tsv.2, g)
                else searchEntityCompute g now entity hop limit
  | none => searchEntityCompute g now entity hop limit

/-! ## Lemmas and theorems for the graph-store claims -/

/-- Every result's recorded path length respects the hop bound. -/
def resultsHopOK (hop : Nat) (rs : List GraphResult) : Prop :=
  ∀ r ∈ rs, r.pathLength ≤ hop + 1

/-- Cache well-formedness: every cached result list satisfies the hop
bound of its own key. -/
def searchCacheOK (g : GraphStore) : Prop :=
  ∀ e ∈ g.searchCache, resultsHopOK e.1.2.1 e.2.2

/-- Membership after stable insertion. -/
lemma mem_insSorted {le : α → α → Bool} {x a : α} {l : List α}
    (h : x ∈ insSorted le a l) : x = a ∨ x ∈ l := by
  induction l with
  | nil =>
    rw [insSorted] at h
    simp only [List.mem_singleton] at h
    exact Or.inl h
  | cons y ys ih =>
    rw [insSorted] at h
    by_cases hle : le a y
    · rw [if_pos hle] at h
      simp only [List.mem_cons] at h
      rcases h with h | h | h
      exacts [Or.inl h, Or.inr (by simp [h]), Or.inr (by simp [h])]
    · rw [if_neg hle] at h
      simp only [List.mem_cons] at h
      rcases h with h | h
      · exact Or.inr (by simp [h])
      · rcases ih h with h' | h'
        exacts [Or.inl h', Or.inr (by simp [h'])]

/-- Stable sorting permutes, so membership is preserved. -/
lemma mem_insSort {le : α → α → Bool} {x : α} {l : List α}
    (h : x ∈ insSort le l) : x ∈ l := by
  induction l with
  | nil => rw [insSort] at h; exact h
  | cons y ys ih =>
    rw [insSort] at h
    rcases mem_insSorted h with h' | h'
    · simp [h']
    · simp [ih h']

/-- A successful lookup exhibits a member. -/
lemma alookup_mem [DecidableEq κ] {k : κ} {v : β} {l : List (κ × β)}
    (h : alookup k l = some v) : (k, v) ∈ l := by
  induction l with
  | nil => simp [alookup] at h
  | cons p rest ih =>
    obtain ⟨k₁, v₁⟩ := p
    rw [alookup] at h
    by_cases hk : k = k₁
    · rw [if_pos hk] at h
      cases h; subst hk; simp
    · rw [if_neg hk] at h
      simp [ih h]

/-- Entries after a dict assignment are the new pair or old entries. -/
lemma mem_setAssoc [DecidableEq κ] {x : κ × β} {k : κ} {v : β} {l : List (κ × β)}
    (h : x ∈ setAssoc k v l) : x = (k, v) ∨ x ∈ l := by
  induction l with
  | nil =>
    rw [setAssoc] at h
    simp only [List.mem_singleton] at h
    exact Or.inl h
  | cons p rest ih =>
    obtain ⟨k₁, v₁⟩ := p
    rw [setAssoc] at h
    by_cases hk : k = k₁
    · rw [if_pos hk] at h
      simp only [List.mem_cons] at h
      rcases h with h | h
      · exact Or.inl h
      · exact Or.inr (by simp [h])
    · rw [if_neg hk] at h
      simp only [List.mem_cons] at h
      rcases h with h | h
      · exact Or.inr (by simp [h])
      · rcases ih h with h' | h'
        exacts [Or.inl h', Or.inr (by simp [h'])]

/-- Appending one in-bound result preserves the hop bound. -/
lemma resultsHopOK_append (hop : Nat) (results : List GraphResult) (r : GraphResult)
    (h : resultsHopOK hop results) (hr : r.pathLength ≤ hop + 1) :
    resultsHopOK hop (results ++ [r]) := by
  intro r' hr'
  rcases List.mem_append.1 hr' with h' | h'
  · exact h r' h'
  · simp only [List.mem_singleton] at h'
    subst h'
    exact hr

/-- The inner neighbor loop only appends results that satisfy the
`len(path) <= hop_distance + 1` guard. -/
lemma searchInner_hopOK (g : GraphStore) (entity node : String) (hop limit : Nat)
    (ns : List (String × Nat)) (results : List GraphResult)
    (pairs : List (String × String)) (h : resultsHopOK hop results) :
    resultsHopOK hop (searchInner g entity node hop limit ns results pairs).1 := by
  induction ns generalizing results pairs with
  | nil => simpa [searchInner] using h
  | cons nd rest ih =>
    obtain ⟨neighbor, distance⟩ := nd
    rw [searchInner]
    by_cases h1 : neighbor = node
    · rw [if_pos h1]; exact ih results pairs h
    · rw [if_neg h1]
      by_cases h2 : pairs.contains (pairKeyOf node neighbor)
      · rw [if_pos h2]; exact ih results pairs h
      · rw [if_neg h2]
        cases hsp : shortestPath g node neighbor with
        | none => exact ih results _ h
        | some path =>
          simp only []
          by_cases h3 : path.length ≤ hop + 1
          · rw [if_pos h3]
            have happ := resultsHopOK_append hop results
              (mkGraphResult g entity node neighbor distance path hop) h
              (by simpa [mkGraphResult] using h3)
            by_cases h4 : limit * 2 ≤
                (results ++ [mkGraphResult g entity node neighbor distance path hop]).length
            · rw [if_pos h4]; exact happ
            · rw [if_neg h4]; exact ih _ _ happ
          · rw [if_neg h3]
            by_cases h4 : limit * 2 ≤ results.length
            · rw [if_pos h4]; exact h
            · rw [if_neg h4]; exact ih _ _ h

/-- The outer node loop preserves the hop bound of accumulated results. -/
lemma searchOuter_hopOK (entity : String) (hop limit : Nat) (nodes : List String)
    (g : GraphStore) (results : List GraphResult) (pairs : List (String × String))
    (h : resultsHopOK hop results) :
    resultsHopOK hop (searchOuter entity hop limit nodes g results pairs).1 := by
  induction nodes generalizing g results pairs with
  | nil => simpa [searchOuter] using h
  | cons node rest ih =>
    rw [searchOuter]
    by_cases h1 : g.nodes.contains node
    · rw [if_pos h1]
      exact ih _ _ _ (searchInner_hopOK _ entity node hop limit _ _ _ h)
    · rw [if_neg h1]
      exact ih _ _ _ h

/-- Neighbor-cache memoization never touches the search cache. -/
lemma getNeighborsCached_searchCache (g : GraphStore) (node : String) (hop : Nat) :
    (getNeighborsCached g node hop).2.searchCache = g.searchCache := by
  unfold getNeighborsCached
  cases alookup (node, hop) g.neighborCache <;> rfl

/-- The outer loop never touches the search cache. -/
lemma searchOuter_searchCache (entity : String) (hop limit : Nat) (nodes : List String)
    (g : GraphStore) (results : List GraphResult) (pairs : List (String × String)) :
    (searchOuter entity hop limit nodes g results pairs).2.searchCache = g.searchCache := by
  induction nodes generalizing g results pairs with
  | nil => rfl
  | cons node rest ih =>
    rw [searchOuter]
    split_ifs with h1
    · rw [ih]
      exact getNeighborsCached_searchCache g node hop
    · exact ih _ _ _

/-- Cache cleaning only removes entries. -/
lemma graphCleanCache_subset (g : GraphStore) (now : ℚ)
    (e : (String × Nat × Nat) × (ℚ × List GraphResult))
    (he : e ∈ (graphCleanCache g now).searchCache) : e ∈ g.searchCache := by
  unfold graphCleanCache at he
  simp only [] at he
  split_ifs at he
  · exact List.mem_of_mem_filter (List.mem_of_mem_filter he)
  · exact List.mem_of_mem_filter he

/-- The cache-miss computation returns only hop-bounded results and keeps
the cache well-formed. -/
lemma searchEntityCompute_ok (g : GraphStore) (now : ℚ) (entity : String)
    (hop limit : Nat) (hwf : searchCacheOK g) :
    resultsHopOK hop (searchEntityCompute g now entity hop limit).1 ∧
    searchCacheOK (searchEntityCompute g now entity hop limit).2 := by
  have hfinal : resultsHopOK hop (searchEntityFinal g entity hop limit) := by
    intro r hr
    exact searchOuter_hopOK entity hop limit _ g [] []
      (by intro r' hr'; simp at hr') r (mem_insSort (List.mem_of_mem_take hr))
  unfold searchEntityCompute
  by_cases hempty : findMatchingNodes g entity = []
  · rw [if_pos hempty]
    exact ⟨by intro r hr; simp at hr, hwf⟩
  · rw [if_neg hempty]
    refine ⟨hfinal, ?_⟩
    intro e he
    have he₂ := graphCleanCache_subset _ now e he
    simp only [] at he₂
    rcases mem_setAssoc he₂ with h' | h'
    · subst h'
      exact hfinal
    · rw [searchOuter_searchCache] at h'
      exact hwf e h'

/-- Claim C4 (confirmed): for every graph search with hop distance `d`
from a state whose search cache is well-formed (as every reachable state
is — entries are only created by searches with the same key), every
returned relation records a connecting path of at most `d + 1` nodes, and
the cache stays well-formed. -/
theorem c4_hop_distance_bound (g : GraphStore) (now : ℚ) (entity : String)
    (hop limit : Nat) (hwf : searchCacheOK g) :
    resultsHopOK hop (searchEntity g now entity hop limit).1 ∧
    searchCacheOK (searchEntity g now entity hop limit).2 := by
  unfold searchEntity
  cases hc : alookup (lowerStr entity, hop, limit) g.searchCache with
  | some tsv =>
    simp only []
    split_ifs with hfresh
    · exact ⟨hwf _ (alookup_mem hc), hwf⟩
    · exact searchEntityCompute_ok g now entity hop limit hwf
  | none => exact searchEntityCompute_ok g now entity hop limit hwf

/-- Witness for C4 at a concrete one-edge graph with empty caches. -/
theorem c4_witness :
    resultsHopOK 1 (searchEntity (buildGraph [("Therapy", "treats", "Anxiety")])
      0 "Therapy" 1 20).1 ∧
    searchCacheOK (searchEntity (buildGraph [("Therapy", "treats", "Anxiety")])
      0 "Therapy" 1 20).2 :=
  c4_hop_distance_bound (buildGraph [("Therapy", "treats", "Anxiety")]) 0 "Therapy" 1 20
    (by
      intro e he
      have hsc : (buildGraph [("Therapy", "treats", "Anxiety")]).searchCache = [] := rfl
      rw [hsc] at he
      simp at he)

/-- Relevance formula exactly as claim C6 words it: `1/(distance+1)`,
multiplied by 1.5 when the search term appears verbatim in either
endpoint, scaled by the average of the edge weights along the path. -/
def relevanceClaimC6 (g : GraphStore) (originalEntity node neighbor : String)
    (distance : Nat) (path : List String) : ℚ :=
  if 0 < (pathEdgeWeights g path).length then
    calcRelevanceBase originalEntity node neighbor distance
      * ((pathEdgeWeights g path).sum / ((pathEdgeWeights g path).length : ℚ))
  else calcRelevanceBase originalEntity node neighbor distance

/-- Relevance formula as claim C6 must be amended: the per-path scaling
factor is `0.5 +` the average edge weight (not the bare average), and the
product is capped at 1. -/
def relevanceAmendedC6 (g : GraphStore) (originalEntity node neighbor : String)
    (distance : Nat) (path : List String) : ℚ :=
  min 1 ((1 / ((distance : ℚ) + 1))
    * (if strContains (lowerStr node) (lowerStr originalEntity) ∨
        strContains (lowerStr neighbor) (lowerStr originalEntity) then 3/2 else 1)
    * (if 0 < (pathEdgeWeights g path).length then
        1/2 + (pathEdgeWeights g path).sum / ((pathEdgeWeights g path).length : ℚ)
      else 1))

/-- Edge weights in the store are the fixed predicate lookup. -/
def edgeWeightsFromPredicate (g : GraphStore) : Prop :=
  ∀ e ∈ g.edges, e.2.weight = calcEdgeWeight e.2.pred

/-- `add_triple` stores the predicate-derived weight on the new edge and
preserves the property on all others. -/
lemma edgeWeights_addTriple (g : GraphStore) (h : edgeWeightsFromPredicate g)
    (s p o : String) : edgeWeightsFromPredicate (addTriple g s p o) := by
  intro e he
  have hedges : (addTriple g s p o).edges
      = setAssoc (s, o) ⟨p, calcEdgeWeight p⟩ g.edges := rfl
  rw [hedges] at he
  rcases mem_setAssoc he with h' | h'
  · subst h'; rfl
  · exact h e h'

/-- Claim C6 (as stated) is false at a one-edge graph: for the relation
found at distance 1 along `Therapy → Anxiety` (edge weight 0.9 for
"treats") with a non-matching search term, the code computes
`min 1 (1/2 · (0.5 + 0.9)) = 7/10`, not the claimed `1/2 · 0.9 = 9/20`. -/
theorem c6_counterexample :
    calcRelevance (buildGraph [("Therapy", "treats", "Anxiety")])
        "zzz" "Therapy" "Anxiety" 1 ["Therapy", "Anxiety"]
      ≠ relevanceClaimC6 (buildGraph [("Therapy", "treats", "Anxiety")])
        "zzz" "Therapy" "Anxiety" 1 ["Therapy", "Anxiety"] := by
  have hw : pathEdgeWeights (buildGraph [("Therapy", "treats", "Anxiety")])
      ["Therapy", "Anxiety"] = [calcEdgeWeight "treats"] := rfl
  have hcw : calcEdgeWeight "treats" = 9/10 := by
    rw [calcEdgeWeight, if_pos (by decide)]
  have hb : calcRelevanceBase "zzz" "Therapy" "Anxiety" 1 = 1/2 := by
    rw [calcRelevanceBase, if_neg (by decide)]
    norm_num
  rw [calcRelevance, relevanceClaimC6]
  simp only [hw, hcw, hb, List.length_cons, List.length_nil, List.sum_cons, List.sum_nil]
  norm_num

/-- Claim C6 (amended): the relevance of a found relation equals
`min 1 (1/(distance+1) · boost · scale)` where the boost is 1.5 exactly
when the search term occurs in an endpoint and the scale is `0.5 +` the
average of the path's edge weights (1 when the path has no stored edges);
and in every store built by `add_triple`, each edge's weight is the fixed
predicate lookup `_calculate_edge_weight`. -/
theorem c6_relevance_amended :
    (∀ (g : GraphStore) (entity node neighbor : String) (d : Nat) (path : List String),
      calcRelevance g entity node neighbor d path
        = relevanceAmendedC6 g entity node neighbor d path) ∧
    (∀ ts : List (String × String × String), edgeWeightsFromPredicate (buildGraph ts)) := by
  constructor
  · intro g entity node neighbor d path
    rw [calcRelevance, relevanceAmendedC6, calcRelevanceBase]
    split_ifs <;> exact congrArg (min 1) (by ring)
  · intro ts
    have hstep : ∀ (l : List (String × String × String)) (g : GraphStore),
        edgeWeightsFromPredicate g →
        edgeWeightsFromPredicate (l.foldl (fun g t => addTriple g t.1 t.2.1 t.2.2) g) := by
      intro l
      induction l with
      | nil => intro g hg; exact hg
      | cons t rest ih =>
        intro g hg
        exact ih _ (edgeWeights_addTriple g hg t.1 t.2.1 t.2.2)
    exact hstep ts emptyGraph (by intro e he; simp [emptyGraph] at he)

/-! ## Conversation memory (`core/memory.py`)

Messages are modelled by their role and content; the timestamp and
metadata fields are never read by any embedded computation and are
omitted.  All maps are insertion-ordered association lists. -/

/-- One conversation message. -/
structure Msg where
  role : String
  content : String
deriving DecidableEq

/-- One summary record (its `timestamp`/`message_count` fields are never
read and are omitted). -/
structure SummaryRec where
  summary : String
deriving DecidableEq

/-- The critical-context table of one session (`user_name` and the
preference dict). -/
structure CriticalCtx where
  userName : Option String
  preferences : List (String × String)
deriving DecidableEq

/-- `ConversationMemory` state (with its `max_tokens`/`window_size`
configuration). -/
structure Memory where
  maxTokens : ℚ
  windowSize : Nat
  conversations : List (String × List Msg)
  summaries : List (String × List SummaryRec)
  critical : List (String × CriticalCtx)
deriving DecidableEq

/-- The session's rolling log (empty when the session is unknown). -/
def getConv (m : Memory) (sid : String) : List Msg :=
  (alookup sid m.conversations).getD []

/-- Replaces the session's rolling log. -/
def setConv (m : Memory) (sid : String) (msgs : List Msg) : Memory :=
  { m with conversations := setAssoc sid msgs m.conversations }

/-- Word character of the regex class `\w`. -/
def isWordChar (c : Char) : Bool := c.isAlphanum ∨ c = '_'

/-- Models `re.search(marker + r"(\w+)", s)` for a literal marker: finds
the earliest marker occurrence followed by at least one word character and
returns the word. -/
def findCapture (marker : List Char) : List Char → Option (List Char)
  | [] => none
  | c :: rest =>
    if listPrefixOf marker (c :: rest) then
      if ((c :: rest).drop marker.length).takeWhile isWordChar = [] then
        findCapture marker rest
      else some (((c :: rest).drop marker.length).takeWhile isWordChar)
    else findCapture marker rest

/-- The part of the line matched by a trailing `(.+)` group. -/
def restOfLine (l : List Char) : List Char := l.takeWhile (fun c => c ≠ '\n')

/-- Models `re.search(pre + "(v1|v2|…) " + r"(.+)", s)`: earliest position
where one of the alternatives (tried in order) matches with a nonempty
rest-of-line capture. -/
def findVerbCapture (pre : String) (verbs : List String) : List Char → Option (String × List Char)
  | [] => none
  | c :: rest =>
    match verbs.filter (fun v =>
        listPrefixOf (pre ++ v ++ " ").toList (c :: rest)
          && restOfLine ((c :: rest).drop (pre ++ v ++ " ").length) ≠ []) with
    | v :: _ => some (v, restOfLine ((c :: rest).drop (pre ++ v ++ " ").length))
    | [] => findVerbCapture pre verbs rest

/-- Models `re.search(marker + r"(.+)", s)`: earliest marker occurrence
with a nonempty rest-of-line capture. -/
def findTailCapture (marker : String) : List Char → Option (List Char)
  | [] => none
  | c :: rest =>
    if listPrefixOf marker.toList (c :: rest)
        ∧ restOfLine ((c :: rest).drop marker.length) ≠ [] then
      some (restOfLine ((c :: rest).drop marker.length))
    else findTailCapture marker rest

/-- Splits at the last occurrence of `sep` (greedy `(.+) is (.+)`
backtracking). -/
def lastSplitOn (sep : List Char) : List Char → Option (List Char × List Char)
  | [] => none
  | c :: rest =>
    match lastSplitOn sep rest with
    | some (a, b) => some (c :: a, b)
    | none =>
      if listPrefixOf sep (c :: rest) ∧ (c :: rest).drop sep.length ≠ [] then
        some ([], (c :: rest).drop sep.length)
      else none

/-- Uppercase counterpart of `lowerChar`. -/
def upperChar (c : Char) : Char :=
  if 97 ≤ c.toNat ∧ c.toNat ≤ 122 then Char.ofNat (c.toNat - 32) else c

/-- Helper for `pyTitle`: uppercases a character when the previous one was
not alphabetic. -/
def titleAux : List Char → Bool → List Char
  | [], _ => []
  | c :: cs, prevAlpha =>
    (if prevAlpha then lowerChar c else upperChar c) :: titleAux cs c.isAlpha

/-- Models Python `str.title()` (ASCII). -/
def pyTitle (s : String) : String := (titleAux s.toList false).asString

/-- The name extraction of `_extract_critical_context`: the four name
patterns tried in order on the lower-cased content. -/
def extractName (cl : List Char) : Option (List Char) :=
  match findCapture "my name is ".toList cl with
  | some w => some w
  | none =>
    match findCapture "i\x27m ".toList cl with
    | some w => some w
    | none =>
      match findCapture "call me ".toList cl with
      | some w => some w
      | none => findCapture "i am ".toList cl

/-- Outcome of matching the preference patterns: first match wins.
Patterns 5 and 6 (`i live in (.+)`, `i'm from (.+)`) have a single group,
so the source's `match.group(2)` access raises `IndexError`. -/
inductive PrefResult where
  | noneMatched
  | found (category value : String)
  | raisedPref
deriving DecidableEq

/-- Pattern 3, `my (favorite|preferred) (.+) is (.+)`: greedy split at the
last ` is ` of the captured line (later marker occurrences are not
re-scanned — an approximation of regex backtracking that no embedded
computation depends on). -/
def pref3 (cl : List Char) : Option (String × String) :=
  match findVerbCapture "my " ["favorite", "preferred"] cl with
  | some cr =>
    match lastSplitOn " is ".toList cr.2 with
    | some ab => if ab.1 ≠ [] then some (cr.1, ab.1.asString ++ " " ++ ab.2.asString) else none
    | none => none
  | none => none

/-- The preference extraction of `_extract_critical_context`: the six
patterns tried in order on the lower-cased content. -/
def extractPref (cl : List Char) : PrefResult :=
  match findVerbCapture "i " ["like", "love", "enjoy"] cl with
  | some cv => .found cv.1 cv.2.asString
  | none =>
    match findVerbCapture "i " ["don\x27t like", "hate", "dislike"] cl with
    | some cv => .found cv.1 cv.2.asString
    | none =>
      match pref3 cl with
      | some cv => .found cv.1 cv.2
      | none =>
        match findVerbCapture "i " ["work", "study"] cl with
        | some cv => .found cv.1 cv.2.asString
        | none =>
          if (findTailCapture "i live in " cl).isSome then .raisedPref
          else if (findTailCapture "i\x27m from " cl).isSome then .raisedPref
          else .noneMatched

/-- The session's critical context (empty when the session is unknown). -/
def getCrit (m : Memory) (sid : String) : CriticalCtx :=
  (alookup sid m.critical).getD ⟨none, []⟩

/-- The name-extraction update of `_extract_critical_context`. -/
def extractNameUpdate (m : Memory) (sid : String) (cl : List Char) : Memory :=
  match extractName cl with
  | some w => { m with critical :=
      (setAssoc sid { getCrit m sid with userName := some (pyTitle w.asString) }
        m.critical) }
  | none => m

/-- The preference update of `_extract_critical_context` for a matched
category/value pair. -/
def prefUpdate (m : Memory) (sid cat v : String) : Memory :=
  { m with critical :=
      (setAssoc sid { getCrit m sid with
        preferences := setAssoc cat v (getCrit m sid).preferences } m.critical) }

/-- `ConversationMemory._extract_critical_context` on a user turn: stores
the extracted name, then the first matching preference; the Boolean is
true when the preference loop raises (single-group patterns). -/
def extractCritical (m : Memory) (sid role content : String) : Memory × Bool :=
  if role = "user" then
    match extractPref (lowerStr content).toList with
    | .found cat v =>
      (prefUpdate (extractNameUpdate m sid (lowerStr content).toList) sid cat v, false)
    | .raisedPref => (extractNameUpdate m sid (lowerStr content).toList, true)
    | .noneMatched => (extractNameUpdate m sid (lowerStr content).toList, false)
  else (m, false)

/-- The summarization prompt of `_summarize_conversation`. -/
def summaryPrompt (msgs : List Msg) : String :=
  "Summarize the key points from this conversation in 3-4 sentences, including:\n"
  ++ "- Important topics discussed\n- User\x27s emotional state and concerns\n"
  ++ "- Any preferences or personal information shared\n- Key insights or advice given\n\n"
  ++ "Conversation:\n"
  ++ "\n".intercalate (msgs.map (fun msg => msg.role ++ ": " ++ msg.content))
  ++ "\n\nSummary:"

/-- `ConversationMemory._summarize_conversation`: condense all but the
last five messages into one summary (via the generation capability `llm`;
`none` models an exception, caught and ignored) and pop them from the
log. -/
def summarizeConversation (llm : String → Option String) (m : Memory) (sid : String) : Memory :=
  if (getConv m sid).length < 10 then m
  else if ((getConv m sid).take ((getConv m sid).length - 5)).length < 5 then m
  else
    match llm (summaryPrompt ((getConv m sid).take ((getConv m sid).length - 5))) with
    | none => m
    | some summary =>
      if summary ≠ "" ∧ 10 < (pyStrip summary).length then
        let m₂ := { m with summaries :=
          (setAssoc sid (((alookup sid m.summaries).getD []) ++ [⟨summary⟩]) m.summaries) }
        setConv m₂ sid ((getConv m₂ sid).drop ((getConv m₂ sid).length - 5))
      else m

/-- The token estimate of `_trim_conversation`
(`len(content.split()) * 1.3` summed over the log). -/
def estTokens (msgs : List Msg) : ℚ :=
  (msgs.map (fun msg => ((pyWords msg.content).length : ℚ) * (13/10))).sum

/-- The trimming loop of `_trim_conversation`: pop the oldest message
while over budget and more than five messages remain; when still above 80%
of the budget after a pop, summarize and stop. -/
def trimAux (llm : String → Option String) (sid : String) : Nat → Memory → Memory
  | 0, m => m
  | fuel + 1, m =>
    if m.maxTokens < estTokens (getConv m sid) ∧ 5 < (getConv m sid).length then
      if m.maxTokens * (4/5) < estTokens ((getConv m sid).drop 1) then
        summarizeConversation llm (setConv m sid ((getConv m sid).drop 1)) sid
      else trimAux llm sid fuel (setConv m sid ((getConv m sid).drop 1))
    else m

/-- `ConversationMemory._trim_conversation`. -/
def trimConversation (llm : String → Option String) (m : Memory) (sid : String) : Memory :=
  trimAux llm sid (getConv m sid).length m

/-- Appending to a `deque(maxlen = n)`: keep the newest `n` elements. -/
def pushMax (l : List Msg) (x : Msg) (maxlen : Nat) : List Msg :=
  (l ++ [x]).drop ((l ++ [x]).length - maxlen)

/-- Session-map initialization on first contact
(`add_message`, first block). -/
def addMessageInit (m : Memory) (sid : String) : Memory :=
  if (alookup sid m.conversations).isSome then m
  else { m with conversations := setAssoc sid [] m.conversations,
                summaries := setAssoc sid [] m.summaries,
                critical := setAssoc sid ⟨none, []⟩ m.critical }

/-- The memory right after the bounded append of the new message
(`add_message`, second block). -/
def addMessagePushed (m : Memory) (sid role content : String) : Memory :=
  setConv (addMessageInit m sid) sid
    (pushMax (getConv (addMessageInit m sid) sid) ⟨role, content⟩
      ((addMessageInit m sid).windowSize * 2))

/-- `ConversationMemory.add_message`: initialize the session maps on first
contact, append (bounded by `window_size * 2`), extract critical context
(user turns only — the Boolean reports the source's `IndexError` on the
single-group preference patterns, which skips the remaining steps),
summarize every 20 messages, then trim (local rebindings inlined). -/
def addMessage (llm : String → Option String) (m : Memory) (sid role content : String) :
    Memory × Bool :=
  if (extractCritical (addMessagePushed m sid role content) sid role content).2 then
    ((extractCritical (addMessagePushed m sid role content) sid role content).1, true)
  else
    (trimConversation llm
      (if (getConv (extractCritical (addMessagePushed m sid role content) sid role
            content).1 sid).length % 20 = 0 then
        summarizeConversation llm
          (extractCritical (addMessagePushed m sid role content) sid role content).1 sid
      else (extractCritical (addMessagePushed m sid role content) sid role content).1)
      sid, false)

/-- `ConversationMemory.get_history`: optionally drop system messages,
prepend the last two summaries as one system note, then prepend the
critical-context system note. -/
def getHistory (m : Memory) (sid : String) (includeSystem includeSummaries : Bool) :
    List Msg :=
  match alookup sid m.conversations with
  | none => []
  | some history =>
    let history := if includeSystem then history
                   else history.filter (fun msg => msg.role ≠ "system")
    let history :=
      if includeSummaries then
        match alookup sid m.summaries with
        | some summaries =>
          if summaries ≠ [] then
            ⟨"system", "Previous conversation summary:\n" ++
              "\n\n".intercalate ((summaries.drop (summaries.length - 2)).map
                SummaryRec.summary)⟩ :: history
          else history
        | none => history
      else history
    match alookup sid m.critical with
    | some ctx =>
      if ctx.userName.isSome ∨ ctx.preferences ≠ [] then
        ⟨"system", "Important context:\n" ++ "\n".intercalate
          ((match ctx.userName with
            | some n => ["User\x27s name: " ++ n]
            | none => []) ++
           ctx.preferences.map (fun p => "User " ++ p.1 ++ ": " ++ p.2))⟩ :: history
      else history
    | none => history

/-- `ConversationMemory.clear_history`: delete the session from all three
maps. -/
def clearHistory (m : Memory) (sid : String) : Memory :=
  { m with conversations := m.conversations.filter (fun kv => ¬ (kv.1 = sid)),
           summaries := m.summaries.filter (fun kv => ¬ (kv.1 = sid)),
           critical := m.critical.filter (fun kv => ¬ (kv.1 = sid)) }

/-! ## Query analysis (`agents/query_agent.py`)

The language-model calls are oracle parameters: `classifyLLM` is the raw
classification reply (`none` models an exception), `guardLLM` the Llama
Guard reply, and `crisisDetails` the parsed crisis-detail reply (`none`
models an exception of the detail call, `some none` a JSON parse failure,
`some (some ci)` the parsed dict, with `severity` defaulted to `"moderate"`
when missing). -/

/-- Crisis information slice read downstream (`crisis_detected`,
`severity`). -/
structure CrisisInfo where
  detected : Bool
  severity : String
deriving DecidableEq

/-- Uppercase of a string (ASCII), for the `guard_response.upper()` call. -/
def upperStr (s : String) : String := (s.toList.map upperChar).asString

/-- The immediate-crisis keyword list of `QueryAgent._check_crisis`. -/
def manualCrisisKeywords : List String :=
  ["suicide", "kill myself", "end it", "can\x27t go on", "no point", "give up",
   "better off dead", "hurt myself", "self harm", "cutting", "overdose",
   "want to die"]

/-- The fallback crisis patterns used when the Llama Guard call raises. -/
def crisisFallbackPatterns : List String :=
  ["can\x27t take it", "can\x27t do this", "want it to end", "nothing left",
   "no hope", "hopeless", "pointless", "meaningless life",
   "everyone would be better", "burden", "worthless", "tired of living",
   "tired of everything", "give up on life"]

/-- `QueryAgent._check_crisis`: the manual keyword check short-circuits
with severity `critical`; otherwise Llama Guard decides, with the pattern
fallback when the guard call raises. -/
def checkCrisis (guard : Option String) (details : Option (Option CrisisInfo))
    (query : String) : CrisisInfo :=
  if manualCrisisKeywords.any (fun kw => strContains (lowerStr query) kw) then
    ⟨true, "critical"⟩
  else
    match guard with
    | some g =>
      if strContains (upperStr (pyStrip g)) "UNSAFE" then
        match details with
        | none => ⟨true, "moderate"⟩
        | some none => ⟨true, "high"⟩
        | some (some ci) => ci
      else ⟨false, "none"⟩
    | none =>
      if crisisFallbackPatterns.any (fun p => strContains (lowerStr query) p) then
        ⟨true, "moderate"⟩
      else ⟨false, "none"⟩

/-- Strong emotional indicators of the rule-based classification
fallback. -/
def strongEmotionalPatterns : List String :=
  ["i feel", "i\x27m feeling", "feeling", "felt", "i am", "i\x27m", "i can\x27t",
   "i cant", "i don\x27t", "overwhelm", "overwhelmed", "anxious", "worried",
   "scared", "angry", "sad", "depressed", "lonely", "alone", "hopeless",
   "stress", "upset", "hate", "love", "hurt", "pain", "empty", "numb",
   "meaningless", "can\x27t cope", "can\x27t handle", "too much",
   "everything feels"]

/-- Factual patterns of the rule-based classification fallback. -/
def factualPatterns : List String :=
  ["what is", "what are", "what does", "define", "definition", "according to",
   "dsm", "research shows", "studies show", "symptoms of", "causes of",
   "signs of", "diagnosis", "how common", "how many", "what percentage",
   "statistics", "difference between", "types of", "kinds of", "when was",
   "who developed", "where did", "which", "latest", "recent", "new studies"]

/-- Practical patterns of the rule-based classification fallback. -/
def practicalPatterns : List String :=
  ["how do i", "how to", "how can i", "what should i do", "ways to",
   "steps to", "strategies", "techniques", "help me", "can you help",
   "what can i do", "coping", "manage", "deal with", "handle",
   "what techniques", "what are some", "effective"]

/-- The rule-based fallback used when the classification reply is not one
of the three types. -/
def classifyFallback (query : String) : String :=
  if strongEmotionalPatterns.any (fun p => strContains (lowerStr query) p) then "emotional"
  else if factualPatterns.any (fun p => strContains (lowerStr query) p) then "factual"
  else if practicalPatterns.any (fun p => strContains (lowerStr query) p) then "practical"
  else if query.endsWith "?" then "practical"
  else "emotional"

/-- The smaller fallback used when the classification call raises. -/
def classifyExceptFallback (query : String) : String :=
  if (["what is", "what are", "symptoms", "dsm", "according to"] : List String).any
      (fun w => strContains (lowerStr query) w) then "factual"
  else if query.endsWith "?" then "practical"
  else "emotional"

/-- `QueryAgent._classify_query_type`: normalize the reply; accept one of
the three types; otherwise the rule-based fallback; on exception the
smaller fallback. -/
def classifyQueryType (llm : Option String) (query : String) : String :=
  match llm with
  | some result =>
    if lowerStr (pyStrip result) = "factual" ∨ lowerStr (pyStrip result) = "practical"
        ∨ lowerStr (pyStrip result) = "emotional" then
      lowerStr (pyStrip result)
    else classifyFallback query
  | none => classifyExceptFallback query

/-- `QueryAgent.process` (the analysis fields the orchestrator and the
retrieval stage read; the emotional-situation fields are never read by
them and are omitted).  `_check_crisis` runs only for queries classified
emotional; `use_web_only` and `requires_current_info` are both
`query_type ∈ {factual, practical}`.  The source's per-call try/except
cannot fire here (its body is total), so the fallback analysis path is
unreachable. -/
def queryAgentProcess (classifyLLM : Option String) (guard : Option String)
    (details : Option (Option CrisisInfo)) (query : String) : QueryAnalysis :=
  { intent := classifyQueryType classifyLLM query
      ++ (if classifyQueryType classifyLLM query = "emotional" then "_support" else ""),
    queryType := classifyQueryType classifyLLM query,
    complexity := if classifyQueryType classifyLLM query = "emotional" then "moderate"
                  else "simple",
    urgencyLevel :=
      if classifyQueryType classifyLLM query = "emotional"
          ∧ (checkCrisis guard details query).detected then "critical"
      else if classifyQueryType classifyLLM query = "emotional" then
        (checkCrisis guard details query).severity
      else "none",
    requiresCurrentInfo := classifyQueryType classifyLLM query = "factual"
      ∨ classifyQueryType classifyLLM query = "practical",
    useWebOnly := classifyQueryType classifyLLM query = "factual"
      ∨ classifyQueryType classifyLLM query = "practical",
    retrievalStrategy := none,
    topKOverride := none }

/-! ## Orchestrator (`agents/orchestrator.py`)

Sub-agent stages below classification, the hash function and the clock
are oracle parameters. -/

/-- One retrieved item as the orchestrator handles it (text and retrieval
score; the other dict fields are never read by the orchestrator). -/
structure RItem where
  text : String
  score : ℚ
deriving DecidableEq

/-- A verified item as `_batch_verify` filters it. -/
structure VerifiedItem where
  item : RItem
  recommendation : String
  finalConfidence : ℚ
deriving DecidableEq

/-- Outcome of one `_verify_with_timeout` task inside the gather. -/
inductive VerifyTask where
  | ok (success : Bool) (v : VerifiedItem)
  | timedOut
  | raised

/-- The retrieval stage's response (`success`, item list, error). -/
structure RetrievalResp where
  success : Bool
  data : List RItem
  error : Option String

/-- The synthesis stage's response. -/
structure SynthResp where
  success : Bool
  response : String
  confidence : ℚ
  sources : List String
  error : Option String

/-- The orchestrator's user-facing response payload (crisis and final
responses; failure paths are represented by `OrchOutcome.stageFailure`). -/
structure OrchResponse where
  success : Bool
  response : String
  confidence : ℚ
  sources : List String
  sessionId : Option String
  model : String
  crisisDetected : Bool
  error : Option String
deriving DecidableEq

/-- What one `process` call returns: a response payload, or a failed
stage's response propagated as-is (its stage-specific data is never read
by callers on that path and is summarized by the stage name and error). -/
inductive OrchOutcome where
  | resp (r : OrchResponse)
  | stageFailure (stage : String) (error : Option String)
deriving DecidableEq

/-- Orchestrator state: the conversation memory and the response cache
(keyed by MD5 hex digests, carrying insertion timestamps). -/
structure OrchState where
  memory : Memory
  responseCache : List (String × (ℚ × OrchResponse))
deriving DecidableEq

/-- The configuration the orchestrator's caching reads. -/
structure OrchConfig where
  enableResponseCaching : Bool
  cacheTtl : ℚ
deriving DecidableEq

/-- The external capabilities `process` consumes, as oracles: `hash` is
`hashlib.md5(...).hexdigest()`, `now` is `time.time()`, the LLM replies
are as in the query agent, `memoryLLM` is the summarization capability,
and `retrieval`/`verify`/`synthesis` are the sub-agent stages below
classification (embedded separately; their responses here are arbitrary). -/
structure OrchOracles where
  hash : String → String
  now : ℚ
  classifyLLM : Option String
  guardLLM : Option String
  crisisDetails : Option (Option CrisisInfo)
  memoryLLM : String → Option String
  retrieval : QueryAnalysis → String → RetrievalResp
  verify : RItem → VerifyTask
  batchTimedOut : Bool
  synthesis : List VerifiedItem → QueryAnalysis → String → List Msg → Option String → SynthResp

/-- `OrchestratorAgent._get_cache_key` (the string hashed). -/
def cacheKeyString (query sid : String) (modelPref : Option String) : String :=
  query ++ ":" ++ sid ++ ":" ++ (modelPref.getD "default")

/-- The verification budget by declared complexity
(simple 5, moderate 8, otherwise 10). -/
def maxToVerify (complexity : String) : Nat :=
  if complexity = "simple" then 5 else if complexity = "moderate" then 8 else 10

/-- `OrchestratorAgent._batch_verify`: on batch timeout the first two
items are passed through with 0.7-scaled confidence; otherwise each task's
outcome is filtered — exceptions dropped, per-item timeouts passed through
with 0.8-scaled confidence and `use_with_caution`, failures dropped,
rejects kept only above confidence 0.3 (relabelled `use_with_caution`). -/
def batchVerify (verify : RItem → VerifyTask) (timedOut : Bool) (items : List RItem) :
    List VerifiedItem :=
  if timedOut then (items.take 2).map (fun r => ⟨r, "", r.score * (7/10)⟩)
  else
    items.foldl (fun acc r =>
      match verify r with
      | .raised => acc
      | .timedOut => acc ++ [⟨r, "use_with_caution", r.score * (4/5)⟩]
      | .ok false _ => acc
      | .ok true v =>
        if v.recommendation ≠ "reject" then acc ++ [v]
        else if 3/10 < v.finalConfidence then
          acc ++ [{ v with recommendation := "use_with_caution" }]
        else acc) []

/-- The fixed safety response text of `_handle_crisis`. -/
def crisisResponseText : String :=
  "I\x27m concerned about what you\x27re sharing, and I want you to know that you don\x27t have to go through this alone. \n\nPlease consider reaching out for immediate support:\n- National Suicide Prevention Lifeline: 988 (US)\n- Crisis Text Line: Text HOME to 741741\n- International Crisis Lines: findahelpline.com\n\nIf you\x27re in immediate danger, please call emergency services (911) or go to your nearest emergency room.\n\nI\x27m here to listen and support you, but please also connect with human professionals who can provide the specialized help you deserve."

/-- The response payload `_handle_crisis` returns: the fixed text,
confidence 1.0, the crisis-protocol source, no session id, and the crisis
model tag. -/
def crisisOrchResponse (modelPref : Option String) : OrchResponse :=
  ⟨true, crisisResponseText, 1, ["crisis_protocol"], none,
   (match modelPref with
    | some mp => "genie-crisis-" ++ mp
    | none => "genie-crisis"), true, none⟩

/-- `OrchestratorAgent._handle_crisis`: the fixed response, appended to
the conversation memory of the hard-coded session `"crisis"` (not the
caller's session, which is not even passed in). -/
def handleCrisis (memoryLLM : String → Option String) (m : Memory)
    (modelPref : Option String) : OrchResponse × Memory :=
  (crisisOrchResponse modelPref,
   (addMessage memoryLLM m "crisis" "assistant" crisisResponseText).1)

/-- `OrchestratorAgent._clean_cache`: drop entries older than the TTL,
then the 50 oldest once more than 100 remain. -/
def cleanOrchCache (now ttl : ℚ) (cache : List (String × (ℚ × OrchResponse))) :
    List (String × (ℚ × OrchResponse)) :=
  if 100 < (cache.filter (fun kv => ¬ (ttl < now - kv.2.1))).length then
    (cache.filter (fun kv => ¬ (ttl < now - kv.2.1))).filter (fun kv =>
      ¬ ((((insSort (fun a b => decide (a.2.1 ≤ b.2.1))
            (cache.filter (fun kv₂ => ¬ (ttl < now - kv₂.2.1)))).take 50).map
          Prod.fst).contains kv.1))
  else cache.filter (fun kv => ¬ (ttl < now - kv.2.1))

/-- The pipeline below the cache check of `OrchestratorAgent.process`:
memory read, user-message write (whose critical-context extraction can
raise, reaching the top-level catch-all), classification, the crisis
branch, lightweight or full retrieval, bounded batch verification,
synthesis, the assistant-message write, response assembly and caching. -/
def orchProcessMain (o : OrchOracles) (cfg : OrchConfig) (query sid : String)
    (modelPref : Option String) (history : Option (List Msg)) (st : OrchState) :
    OrchOutcome × OrchState :=
  let hist := history.getD (getHistory st.memory sid false true)
  let am := addMessage o.memoryLLM st.memory sid "user" query
  if am.2 then
    (.stageFailure "exception" (some "no such group"), { st with memory := am.1 })
  else
    let qa := queryAgentProcess o.classifyLLM o.guardLLM o.crisisDetails query
    if qa.urgencyLevel = "critical" then
      (.resp (crisisOrchResponse modelPref),
       { st with memory := (handleCrisis o.memoryLLM am.1 modelPref).2 })
    else
      let retr := if lowerStr qa.intent = "emotional_support" ∧ ¬ qa.requiresCurrentInfo
        then o.retrieval (lightweightAnalysis qa) query
        else o.retrieval qa query
      if ¬ retr.success then
        (.stageFailure "retrieval" retr.error, { st with memory := am.1 })
      else
        let verified := batchVerify o.verify o.batchTimedOut
          (retr.data.take (maxToVerify qa.complexity))
        let synth := o.synthesis verified qa query hist modelPref
        if ¬ synth.success then
          (.stageFailure "synthesis" synth.error, { st with memory := am.1 })
        else
          let am₂ := addMessage o.memoryLLM am.1 sid "assistant" synth.response
          let final : OrchResponse := ⟨true, synth.response, synth.confidence,
            synth.sources, some sid,
            (match modelPref with
             | some mp => "genie-rag-" ++ mp
             | none => "genie-rag"), false, none⟩
          if cfg.enableResponseCaching then
            (.resp final,
             { memory := am₂.1,
               responseCache := cleanOrchCache o.now cfg.cacheTtl
                 (setAssoc (o.hash (cacheKeyString query sid modelPref))
                   (o.now, final) st.responseCache) })
          else (.resp final, { st with memory := am₂.1 })

/-- `OrchestratorAgent.process`: an unexpired response-cache hit (with
caching enabled) short-circuits the whole pipeline and returns the stored
response unchanged; a stale entry falls through to the pipeline. -/
def orchProcess (o : OrchOracles) (cfg : OrchConfig) (query sid : String)
    (modelPref : Option String) (history : Option (List Msg)) (st : OrchState) :
    OrchOutcome × OrchState :=
  match alookup (o.hash (cacheKeyString query sid modelPref)) st.responseCache with
  | some tr =>
    if cfg.enableResponseCaching ∧ o.now - tr.1 < cfg.cacheTtl then (.resp tr.2, st)
    else orchProcessMain o cfg query sid modelPref history st
  | none => orchProcessMain o cfg query sid modelPref history st

/-- `OrchestratorAgent.clear_session`: clear the session's conversation
memory, then delete the response-cache entries whose key contains the
session id as a substring. -/
def clearSession (st : OrchState) (sid : String) : OrchState :=
  { memory := clearHistory st.memory sid,
    responseCache := st.responseCache.filter (fun kv => ¬ strContains kv.1 sid) }

/-! ## Lemmas on the memory operations -/

/-- Lookup after an assignment to a different key is unchanged. -/
lemma alookup_setAssoc_ne [DecidableEq κ] (k k' : κ) (v : β) (l : List (κ × β))
    (h : k' ≠ k) : alookup k' (setAssoc k v l) = alookup k' l := by
  induction l with
  | nil => simp [setAssoc, alookup, h]
  | cons p rest ih =>
    obtain ⟨k₁, v₁⟩ := p
    rw [setAssoc]
    by_cases hk : k = k₁
    · subst hk
      rw [if_pos rfl, alookup, alookup, if_neg h, if_neg h]
    · rw [if_neg hk, alookup, alookup]
      by_cases hk' : k' = k₁
      · rw [if_pos hk', if_pos hk']
      · rw [if_neg hk', if_neg hk']
        exact ih

/-- Lookup after an assignment to the same key returns the new value. -/
lemma alookup_setAssoc_self [DecidableEq κ] (k : κ) (v : β) (l : List (κ × β)) :
    alookup k (setAssoc k v l) = some v := by
  induction l with
  | nil => simp [setAssoc, alookup]
  | cons p rest ih =>
    obtain ⟨k₁, v₁⟩ := p
    rw [setAssoc]
    by_cases hk : k = k₁
    · rw [if_pos hk, alookup, if_pos rfl]
    · rw [if_neg hk, alookup, if_neg hk]
      exact ih

/-- Deleting a key from an association list makes it unfindable. -/
lemma alookup_filter_out [DecidableEq κ] (k : κ) (l : List (κ × β)) :
    alookup k (l.filter (fun kv => ¬ (kv.1 = k))) = none := by
  induction l with
  | nil => rfl
  | cons p rest ih =>
    obtain ⟨k₁, v₁⟩ := p
    by_cases hk : k₁ = k
    · subst hk
      simp only [List.filter_cons]
      rw [if_neg (by simp)]
      exact ih
    · simp only [List.filter_cons]
      rw [if_pos (by simp [hk])]
      rw [alookup, if_neg (fun h => hk h.symm)]
      exact ih

/-- A dropped message at the front does not change the last message. -/
lemma getLast?_drop_lt (l : List α) (k : Nat) (h : k < l.length) :
    (l.drop k).getLast? = l.getLast? := by
  induction l generalizing k with
  | nil => simp at h
  | cons x xs ih =>
    cases k with
    | zero => rfl
    | succ n =>
      simp only [List.length_cons, Nat.succ_lt_succ_iff] at h
      rw [List.drop_succ_cons, ih n h]
      cases xs with
      | nil => simp at h
      | cons y ys => simp [List.getLast?_cons_cons]

/-- Appending to a bounded deque with positive capacity keeps the new
element last. -/
lemma pushMax_getLast (l : List Msg) (x : Msg) (n : Nat) (h : 1 ≤ n) :
    (pushMax l x n).getLast? = some x := by
  unfold pushMax
  have hk : (l ++ [x]).length - n ≤ l.length := by
    simp only [List.length_append, List.length_singleton]
    omega
  rw [List.drop_append_of_le_length hk]
  rw [List.getLast?_append]
  rfl

/-- The name update never touches the conversation maps or the
configuration. -/
lemma extractNameUpdate_frame (m : Memory) (sid : String) (cl : List Char) :
    (extractNameUpdate m sid cl).conversations = m.conversations ∧
    (extractNameUpdate m sid cl).windowSize = m.windowSize ∧
    (extractNameUpdate m sid cl).maxTokens = m.maxTokens := by
  unfold extractNameUpdate
  cases extractName cl <;> exact ⟨rfl, rfl, rfl⟩

/-- The critical-context extraction never touches the conversation maps. -/
lemma extractCritical_conversations (m : Memory) (sid role content : String) :
    (extractCritical m sid role content).1.conversations = m.conversations := by
  unfold extractCritical
  by_cases hr : role = "user"
  · rw [if_pos hr]
    cases extractPref (lowerStr content).toList <;>
      simp only [prefUpdate] <;>
      exact (extractNameUpdate_frame m sid _).1
  · rw [if_neg hr]

/-- The critical-context extraction preserves the configuration fields. -/
lemma extractCritical_config (m : Memory) (sid role content : String) :
    (extractCritical m sid role content).1.windowSize = m.windowSize ∧
    (extractCritical m sid role content).1.maxTokens = m.maxTokens := by
  unfold extractCritical
  by_cases hr : role = "user"
  · rw [if_pos hr]
    cases extractPref (lowerStr content).toList <;>
      simp only [prefUpdate] <;>
      exact ⟨(extractNameUpdate_frame m sid _).2.1, (extractNameUpdate_frame m sid _).2.2⟩
  · rw [if_neg hr]
    exact ⟨rfl, rfl⟩

/-- Summarization rewrites only the session's own log. -/
lemma summarize_conversations_ne (llm : String → Option String) (m : Memory)
    (sid s : String) (h : s ≠ sid) :
    alookup s (summarizeConversation llm m sid).conversations
      = alookup s m.conversations := by
  unfold summarizeConversation
  split_ifs with h1 h2
  · rfl
  · rfl
  · cases llm (summaryPrompt ((getConv m sid).take ((getConv m sid).length - 5))) with
    | none => rfl
    | some summary =>
      simp only []
      split_ifs with h3
      · unfold setConv
        simp only []
        exact alookup_setAssoc_ne sid s _ _ h
      · rfl

/-- Summarization preserves the configuration fields. -/
lemma summarize_config (llm : String → Option String) (m : Memory) (sid : String) :
    (summarizeConversation llm m sid).windowSize = m.windowSize ∧
    (summarizeConversation llm m sid).maxTokens = m.maxTokens := by
  unfold summarizeConversation
  split_ifs with h1 h2
  · exact ⟨rfl, rfl⟩
  · exact ⟨rfl, rfl⟩
  · cases llm (summaryPrompt ((getConv m sid).take ((getConv m sid).length - 5))) with
    | none => exact ⟨rfl, rfl⟩
    | some summary =>
      simp only []
      split_ifs with h3
      · exact ⟨rfl, rfl⟩
      · exact ⟨rfl, rfl⟩

/-- Summarization keeps the last message of the session's log. -/
lemma summarize_getLast (llm : String → Option String) (m : Memory) (sid : String) :
    (getConv (summarizeConversation llm m sid) sid).getLast?
      = (getConv m sid).getLast? := by
  unfold summarizeConversation
  split_ifs with h1 h2
  · rfl
  · rfl
  · cases llm (summaryPrompt ((getConv m sid).take ((getConv m sid).length - 5))) with
    | none => rfl
    | some summary =>
      simp only []
      split_ifs with h3
      · unfold getConv setConv
        simp only [alookup_setAssoc_self, Option.getD_some]
        have hlen : (getConv m sid).length - 5 < (getConv m sid).length := by
          push_neg at h1
          omega
        have : alookup sid ({ m with summaries :=
            (setAssoc sid (((alookup sid m.summaries).getD []) ++
              [⟨summary⟩]) m.summaries) } : Memory).conversations
            = alookup sid m.conversations := rfl
        rw [getLast?_drop_lt _ _ (by exact hlen)]
      · rfl

/-- Trimming rewrites only the session's own log. -/
lemma trimAux_conversations_ne (llm : String → Option String) (sid s : String)
    (h : s ≠ sid) (fuel : Nat) (m : Memory) :
    alookup s (trimAux llm sid fuel m).conversations = alookup s m.conversations := by
  induction fuel generalizing m with
  | zero => rfl
  | succ n ih =>
    rw [trimAux]
    split_ifs with h1 h2
    · rw [summarize_conversations_ne llm _ sid s h]
      unfold setConv
      simp only []
      exact alookup_setAssoc_ne sid s _ _ h
    · rw [ih]
      unfold setConv
      simp only []
      exact alookup_setAssoc_ne sid s _ _ h
    · rfl

/-- Trimming preserves the configuration fields. -/
lemma trimAux_config (llm : String → Option String) (sid : String) (fuel : Nat)
    (m : Memory) :
    (trimAux llm sid fuel m).windowSize = m.windowSize ∧
    (trimAux llm sid fuel m).maxTokens = m.maxTokens := by
  induction fuel generalizing m with
  | zero => exact ⟨rfl, rfl⟩
  | succ n ih =>
    rw [trimAux]
    split_ifs with h1 h2
    · exact summarize_config llm _ sid
    · exact ih _
    · exact ⟨rfl, rfl⟩

/-- Trimming keeps the last message of the session's log. -/
lemma trimAux_getLast (llm : String → Option String) (sid : String) (fuel : Nat)
    (m : Memory) :
    (getConv (trimAux llm sid fuel m) sid).getLast? = (getConv m sid).getLast? := by
  induction fuel generalizing m with
  | zero => rfl
  | succ n ih =>
    rw [trimAux]
    split_ifs with h1 h2
    · rw [summarize_getLast]
      unfold getConv setConv
      simp only [alookup_setAssoc_self, Option.getD_some]
      exact getLast?_drop_lt _ _ (by have := h1.2; unfold getConv at this; omega)
    · rw [ih]
      unfold getConv setConv
      simp only [alookup_setAssoc_self, Option.getD_some]
      exact getLast?_drop_lt _ _ (by have := h1.2; unfold getConv at this; omega)
    · rfl

/-- Session initialization preserves the configuration fields. -/
lemma addMessageInit_config (m : Memory) (sid : String) :
    (addMessageInit m sid).windowSize = m.windowSize ∧
    (addMessageInit m sid).maxTokens = m.maxTokens := by
  unfold addMessageInit
  split_ifs <;> exact ⟨rfl, rfl⟩

/-- Session initialization touches no other session's log. -/
lemma addMessageInit_conversations_ne (m : Memory) (sid s : String) (h : s ≠ sid) :
    alookup s (addMessageInit m sid).conversations = alookup s m.conversations := by
  unfold addMessageInit
  split_ifs with h1
  · rfl
  · exact alookup_setAssoc_ne sid s _ _ h

/-- The bounded append touches no other session's log. -/
lemma addMessagePushed_conversations_ne (m : Memory) (sid role content s : String)
    (h : s ≠ sid) :
    alookup s (addMessagePushed m sid role content).conversations
      = alookup s m.conversations := by
  unfold addMessagePushed setConv
  simp only []
  rw [alookup_setAssoc_ne sid s _ _ h]
  exact addMessageInit_conversations_ne m sid s h

/-- The bounded append preserves the configuration fields. -/
lemma addMessagePushed_config (m : Memory) (sid role content : String) :
    (addMessagePushed m sid role content).windowSize = m.windowSize ∧
    (addMessagePushed m sid role content).maxTokens = m.maxTokens := by
  unfold addMessagePushed setConv
  exact ⟨(addMessageInit_config m sid).1, (addMessageInit_config m sid).2⟩

/-- After the bounded append, the session's log ends with the new
message. -/
lemma addMessagePushed_getLast (m : Memory) (sid role content : String)
    (hw : 1 ≤ m.windowSize) :
    (getConv (addMessagePushed m sid role content) sid).getLast?
      = some ⟨role, content⟩ := by
  unfold addMessagePushed
  unfold getConv setConv
  simp only [alookup_setAssoc_self, Option.getD_some]
  refine pushMax_getLast _ _ _ ?_
  have := (addMessageInit_config m sid).1
  omega

/-- `add_message` touches no other session's log. -/
lemma addMessage_conversations_ne (llm : String → Option String) (m : Memory)
    (sid role content s : String) (h : s ≠ sid) :
    alookup s (addMessage llm m sid role content).1.conversations
      = alookup s m.conversations := by
  unfold addMessage
  split_ifs with hraise hsum
  · simp only []
    rw [extractCritical_conversations]
    exact addMessagePushed_conversations_ne m sid role content s h
  · simp only []
    rw [trimConversation]
    rw [trimAux_conversations_ne llm sid s h]
    rw [summarize_conversations_ne llm _ sid s h]
    rw [extractCritical_conversations]
    exact addMessagePushed_conversations_ne m sid role content s h
  · simp only []
    rw [trimConversation]
    rw [trimAux_conversations_ne llm sid s h]
    rw [extractCritical_conversations]
    exact addMessagePushed_conversations_ne m sid role content s h

/-- `add_message` preserves the configuration fields. -/
lemma addMessage_config (llm : String → Option String) (m : Memory)
    (sid role content : String) :
    (addMessage llm m sid role content).1.windowSize = m.windowSize ∧
    (addMessage llm m sid role content).1.maxTokens = m.maxTokens := by
  have hec := extractCritical_config (addMessagePushed m sid role content) sid role content
  have hp := addMessagePushed_config m sid role content
  unfold addMessage
  split_ifs with hraise hsum
  · exact ⟨hec.1.trans hp.1, hec.2.trans hp.2⟩
  · simp only []
    rw [trimConversation]
    constructor
    · rw [(trimAux_config llm sid _ _).1, (summarize_config llm _ sid).1]
      exact hec.1.trans hp.1
    · rw [(trimAux_config llm sid _ _).2, (summarize_config llm _ sid).2]
      exact hec.2.trans hp.2
  · simp only []
    rw [trimConversation]
    constructor
    · rw [(trimAux_config llm sid _ _).1]
      exact hec.1.trans hp.1
    · rw [(trimAux_config llm sid _ _).2]
      exact hec.2.trans hp.2

/-- After `add_message`, the session's log ends with the new message
(provided the configured window is positive). -/
lemma addMessage_getLast (llm : String → Option String) (m : Memory)
    (sid role content : String) (hw : 1 ≤ m.windowSize) :
    (getConv (addMessage llm m sid role content).1 sid).getLast?
      = some ⟨role, content⟩ := by
  have hec := extractCritical_conversations (addMessagePushed m sid role content)
    sid role content
  have hlast := addMessagePushed_getLast m sid role content hw
  have hecLast : (getConv (extractCritical (addMessagePushed m sid role content)
      sid role content).1 sid).getLast? = some ⟨role, content⟩ := by
    unfold getConv
    rw [hec]
    exact hlast
  unfold addMessage
  split_ifs with hraise hsum
  · exact hecLast
  · simp only []
    rw [trimConversation, trimAux_getLast, summarize_getLast]
    exact hecLast
  · simp only []
    rw [trimConversation, trimAux_getLast]
    exact hecLast

/-! ## Theorems for the orchestrator claims -/

/-- A fresh cache hit short-circuits `process` and returns the stored
response with the whole state (memory included) unchanged. -/
lemma orchProcess_cache_hit (o : OrchOracles) (cfg : OrchConfig) (query sid : String)
    (modelPref : Option String) (history : Option (List Msg)) (st : OrchState)
    (t : ℚ) (r : OrchResponse)
    (hen : cfg.enableResponseCaching = true)
    (hhit : alookup (o.hash (cacheKeyString query sid modelPref)) st.responseCache
      = some (t, r))
    (hfresh : o.now - t < cfg.cacheTtl) :
    orchProcess o cfg query sid modelPref history st = (.resp r, st) := by
  unfold orchProcess
  simp only [hhit]
  rw [if_pos ⟨hen, hfresh⟩]

/-- Classification `emotional` plus a manual crisis keyword always yields
`urgency_level = "critical"` in the query analysis, regardless of the
Llama Guard and crisis-detail replies. -/
lemma queryAgent_crisis_critical (cl : Option String) (guard : Option String)
    (details : Option (Option CrisisInfo)) (query : String)
    (hclassify : classifyQueryType cl query = "emotional")
    (hkw : manualCrisisKeywords.any (fun kw => strContains (lowerStr query) kw) = true) :
    (queryAgentProcess cl guard details query).urgencyLevel = "critical" := by
  have hdet : (checkCrisis guard details query).detected = true := by
    rw [checkCrisis.eq_def, if_pos hkw]
  unfold queryAgentProcess
  simp [hclassify, hdet]

/-- On a user turn, `add_message` raises exactly when the preference
extraction hits a single-group pattern. -/
lemma addMessage_user_noraise (llm : String → Option String) (m : Memory)
    (sid content : String)
    (h : extractPref (lowerStr content).toList ≠ PrefResult.raisedPref) :
    (addMessage llm m sid "user" content).2 = false := by
  have hec : (extractCritical (addMessagePushed m sid "user" content) sid "user"
      content).2 = false := by
    unfold extractCritical
    rw [if_pos rfl]
    cases hp : extractPref (lowerStr content).toList with
    | noneMatched => rfl
    | found cat v => rfl
    | raisedPref => exact absurd hp h
  unfold addMessage
  rw [if_neg (by rw [hec]; exact Bool.false_ne_true)]

/-- Claim C1 (as stated) is false: the crisis-keyword check runs only for
queries the classifier labels emotional.  The query "suicide statistics"
contains the keyword "suicide", yet when classification returns
"factual" the analysis carries `urgency_level = "none"`, not
`"critical"`. -/
theorem c1_counterexample :
    strContains (lowerStr "suicide statistics") "suicide" = true ∧
    (queryAgentProcess (some "factual") none none "suicide statistics").urgencyLevel
      ≠ "critical" := by
  constructor
  · decide
  · decide

/-- Claim C1 (amended): when the classifier labels the query emotional and
the query contains a manual crisis keyword, the analysis is critical and
`process` — for any behavior of the retrieval, verification and synthesis
stages, which are never consulted — returns the fixed confidence-1.0
safety response, appending the user message to the caller's session and
the safety response to the hard-coded `"crisis"` session (not the
caller's); every other session's log is untouched.  The hypotheses rule
out a response-cache hit and the critical-context `IndexError` on the
user-message write, and require the configured window to be positive. -/
theorem c1_crisis_flow_amended (o : OrchOracles) (cfg : OrchConfig)
    (query sid : String) (modelPref : Option String) (history : Option (List Msg))
    (st : OrchState)
    (hclassify : classifyQueryType o.classifyLLM query = "emotional")
    (hkw : manualCrisisKeywords.any (fun kw => strContains (lowerStr query) kw) = true)
    (hmiss : alookup (o.hash (cacheKeyString query sid modelPref)) st.responseCache
      = none)
    (hnoraise : extractPref (lowerStr query).toList ≠ PrefResult.raisedPref)
    (hw : 1 ≤ st.memory.windowSize) :
    orchProcess o cfg query sid modelPref history st
      = (.resp (crisisOrchResponse modelPref),
         { st with memory := (addMessage o.memoryLLM
             (addMessage o.memoryLLM st.memory sid "user" query).1
             "crisis" "assistant" crisisResponseText).1 }) ∧
    (crisisOrchResponse modelPref).confidence = 1 ∧
    (∀ s, s ≠ sid → s ≠ "crisis" →
      alookup s (addMessage o.memoryLLM
          (addMessage o.memoryLLM st.memory sid "user" query).1
          "crisis" "assistant" crisisResponseText).1.conversations
        = alookup s st.memory.conversations) ∧
    (getConv (addMessage o.memoryLLM
        (addMessage o.memoryLLM st.memory sid "user" query).1
        "crisis" "assistant" crisisResponseText).1 "crisis").getLast?
      = some ⟨"assistant", crisisResponseText⟩ := by
  refine ⟨?_, rfl, ?_, ?_⟩
  · unfold orchProcess
    rw [hmiss]
    unfold orchProcessMain
    rw [if_neg (by
      rw [addMessage_user_noraise o.memoryLLM st.memory sid query hnoraise]
      exact Bool.false_ne_true)]
    rw [if_pos (queryAgent_crisis_critical o.classifyLLM o.guardLLM o.crisisDetails
      query hclassify hkw)]
    rfl
  · intro s hs hc
    rw [addMessage_conversations_ne o.memoryLLM _ "crisis" "assistant" _ s hc]
    exact addMessage_conversations_ne o.memoryLLM st.memory sid "user" query s hs
  · apply addMessage_getLast
    rw [(addMessage_config o.memoryLLM st.memory sid "user" query).1]
    exact hw

/-- Witness for C1 (amended) at a concrete input: the query
"i want to die", classified emotional, on a fresh state. -/
theorem c1_witness :
    let o : OrchOracles :=
      ⟨fun _ => "aa", 1, some "emotional", none, none, fun _ => none,
       fun _ _ => ⟨false, [], none⟩, fun _ => .raised, false,
       fun _ _ _ _ _ => ⟨false, "", 0, [], none⟩⟩
    let st : OrchState := ⟨⟨8000, 50, [], [], []⟩, []⟩
    orchProcess o ⟨true, 3600⟩ "i want to die" "s1" none none st
      = (.resp (crisisOrchResponse none),
         { st with memory := (addMessage o.memoryLLM
             (addMessage o.memoryLLM st.memory "s1" "user" "i want to die").1
             "crisis" "assistant" crisisResponseText).1 }) :=
  (c1_crisis_flow_amended
    ⟨fun _ => "aa", 1, some "emotional", none, none, fun _ => none,
     fun _ _ => ⟨false, [], none⟩, fun _ => .raised, false,
     fun _ _ _ _ _ => ⟨false, "", 0, [], none⟩⟩
    ⟨true, 3600⟩ "i want to die" "s1" none none ⟨⟨8000, 50, [], [], []⟩, []⟩
    (by decide) (by decide) rfl (by decide) (by norm_num)).1

/-- Claim C8 (confirmed): an unexpired response-cache hit (caching
enabled) returns the stored response and performs no memory write — the
entire orchestrator state, conversation memory included, is returned
unchanged. -/
theorem c8_cache_hit_no_memory_write (o : OrchOracles) (cfg : OrchConfig)
    (query sid : String) (modelPref : Option String) (history : Option (List Msg))
    (st : OrchState) (t : ℚ) (r : OrchResponse)
    (hen : cfg.enableResponseCaching = true)
    (hhit : alookup (o.hash (cacheKeyString query sid modelPref)) st.responseCache
      = some (t, r))
    (hfresh : o.now - t < cfg.cacheTtl) :
    orchProcess o cfg query sid modelPref history st = (.resp r, st) ∧
    (orchProcess o cfg query sid modelPref history st).2.memory = st.memory :=
  ⟨orchProcess_cache_hit o cfg query sid modelPref history st t r hen hhit hfresh,
   by rw [orchProcess_cache_hit o cfg query sid modelPref history st t r hen hhit hfresh]⟩

/-- Witness for C8 at a concrete cached state. -/
theorem c8_witness :
    let o : OrchOracles :=
      ⟨fun _ => "aa", 1, none, none, none, fun _ => none,
       fun _ _ => ⟨false, [], none⟩, fun _ => .raised, false,
       fun _ _ _ _ _ => ⟨false, "", 0, [], none⟩⟩
    let r : OrchResponse := ⟨true, "hello", 1/2, [], some "s1", "genie-rag", false, none⟩
    let st : OrchState := ⟨⟨8000, 50, [("s1", [⟨"user", "hi"⟩])], [], []⟩, [("aa", (0, r))]⟩
    orchProcess o ⟨true, 3600⟩ "hi" "s1" none none st = (.resp r, st) ∧
    (orchProcess o ⟨true, 3600⟩ "hi" "s1" none none st).2.memory = st.memory :=
  c8_cache_hit_no_memory_write
    ⟨fun _ => "aa", 1, none, none, none, fun _ => none,
     fun _ _ => ⟨false, [], none⟩, fun _ => .raised, false,
     fun _ _ _ _ _ => ⟨false, "", 0, [], none⟩⟩
    ⟨true, 3600⟩ "hi" "s1" none none
    ⟨⟨8000, 50, [("s1", [⟨"user", "hi"⟩])], [], []⟩,
     [("aa", (0, ⟨true, "hello", 1/2, [], some "s1", "genie-rag", false, none⟩))]⟩
    0 ⟨true, "hello", 1/2, [], some "s1", "genie-rag", false, none⟩
    rfl rfl (by norm_num)

/-- Lowercase hexadecimal digits (the alphabet of `md5(...).hexdigest()`). -/
def isHexLowerChar (c : Char) : Bool :=
  ('0' ≤ c ∧ c ≤ '9') ∨ ('a' ≤ c ∧ c ≤ 'f')

/-- A string over the hex-digest alphabet. -/
def allHexLower (s : String) : Bool := s.toList.all isHexLowerChar

/-- A Boolean prefix holds only elements of the larger list. -/
lemma mem_of_listPrefixOf [DecidableEq α] {n l : List α}
    (h : listPrefixOf n l = true) : ∀ a ∈ n, a ∈ l := by
  induction n generalizing l with
  | nil => intro a ha; simp at ha
  | cons x xs ih =>
    cases l with
    | nil => simp [listPrefixOf] at h
    | cons y ys =>
      rw [listPrefixOf] at h
      simp only [Bool.and_eq_true, decide_eq_true_eq] at h
      intro a ha
      rcases List.mem_cons.1 ha with rfl | ha'
      · simp [h.1]
      · exact List.mem_cons_of_mem _ (ih h.2 a ha')

/-- A Boolean infix holds only elements of the larger list. -/
lemma mem_of_listInfixOf [DecidableEq α] {n l : List α}
    (h : listInfixOf n l = true) : ∀ a ∈ n, a ∈ l := by
  induction l with
  | nil => exact mem_of_listPrefixOf h
  | cons y ys ih =>
    rw [listInfixOf] at h
    simp only [Bool.or_eq_true] at h
    intro a ha
    rcases h with h | h
    · exact mem_of_listPrefixOf h a ha
    · exact List.mem_cons_of_mem _ (ih h a ha)

/-- A string containing a non-hex character is never a substring of a hex
digest. -/
lemma strContains_hex_false (key sid : String)
    (hkey : allHexLower key = true)
    (hsid : sid.toList.any (fun c => ¬ isHexLowerChar c) = true) :
    strContains key sid = false := by
  by_contra h
  rw [Bool.not_eq_false] at h
  obtain ⟨c, hc, hnc⟩ := List.any_eq_true.1 hsid
  simp only [decide_eq_true_eq, Bool.not_eq_true] at hnc
  have hmem := mem_of_listInfixOf h c hc
  have hhex := List.all_eq_true.1 hkey c hmem
  rw [hnc] at hhex
  exact Bool.false_ne_true hhex

/-- Claim C9 (confirmed): for a session id containing any character
outside the lowercase hex alphabet, `clear_session` clears the session's
conversation memory but — because every response-cache key is an MD5 hex
digest and the removal is by substring match — leaves the response cache
unchanged, so a later `process` call still returns the stale cached
response for that session. -/
theorem c9_clear_session_cache_survives (o : OrchOracles) (cfg : OrchConfig)
    (query sid : String) (modelPref : Option String) (history : Option (List Msg))
    (st : OrchState) (t : ℚ) (r : OrchResponse)
    (hkeys : ∀ k ∈ st.responseCache.map Prod.fst, allHexLower k = true)
    (hsid : sid.toList.any (fun c => ¬ isHexLowerChar c) = true)
    (hen : cfg.enableResponseCaching = true)
    (hhit : alookup (o.hash (cacheKeyString query sid modelPref)) st.responseCache
      = some (t, r))
    (hfresh : o.now - t < cfg.cacheTtl) :
    (clearSession st sid).responseCache = st.responseCache ∧
    alookup sid (clearSession st sid).memory.conversations = none ∧
    orchProcess o cfg query sid modelPref history (clearSession st sid)
      = (.resp r, clearSession st sid) := by
  have hcache : (clearSession st sid).responseCache = st.responseCache := by
    unfold clearSession
    simp only []
    apply List.filter_eq_self.2
    intro kv hkv
    have hhex := hkeys kv.1 (List.mem_map_of_mem Prod.fst hkv)
    simp only [strContains_hex_false kv.1 sid hhex hsid]
    decide
  refine ⟨hcache, ?_, ?_⟩
  · unfold clearSession clearHistory
    simp only []
    exact alookup_filter_out sid st.memory.conversations
  · exact orchProcess_cache_hit o cfg query sid modelPref history (clearSession st sid)
      t r hen (by rw [hcache]; exact hhit) hfresh

/-- Witness for C9 at a concrete state: session `"user_1"` (the underscore
is not a hex digit) with a cached response under the digest-shaped key
`"abc123"`. -/
theorem c9_witness :
    let o : OrchOracles :=
      ⟨fun _ => "abc123", 1, none, none, none, fun _ => none,
       fun _ _ => ⟨false, [], none⟩, fun _ => .raised, false,
       fun _ _ _ _ _ => ⟨false, "", 0, [], none⟩⟩
    let r : OrchResponse := ⟨true, "hello", 1/2, [], some "user_1", "genie-rag", false, none⟩
    let st : OrchState := ⟨⟨8000, 50, [("user_1", [⟨"user", "hi"⟩])], [], []⟩,
      [("abc123", (0, r))]⟩
    (clearSession st "user_1").responseCache = st.responseCache ∧
    alookup "user_1" (clearSession st "user_1").memory.conversations = none ∧
    orchProcess o ⟨true, 3600⟩ "hi" "user_1" none none (clearSession st "user_1")
      = (.resp r, clearSession st "user_1") :=
  c9_clear_session_cache_survives
    ⟨fun _ => "abc123", 1, none, none, none, fun _ => none,
     fun _ _ => ⟨false, [], none⟩, fun _ => .raised, false,
     fun _ _ _ _ _ => ⟨false, "", 0, [], none⟩⟩
    ⟨true, 3600⟩ "hi" "user_1" none none
    ⟨⟨8000, 50, [("user_1", [⟨"user", "hi"⟩])], [], []⟩,
     [("abc123", (0, ⟨true, "hello", 1/2, [], some "user_1", "genie-rag", false, none⟩))]⟩
    0 ⟨true, "hello", 1/2, [], some "user_1", "genie-rag", false, none⟩
    (by decide) (by decide) rfl rfl (by norm_num)

end Genie
